import Mathlib

/-!
# ADSR envelope generator (`envgen/envelope_generator.h`)

A shallow embedding of `EnvelopeGenerator` from
`software/o_c_REV/envgen/envelope_generator.h`.

* C `int` and `simfloat` (`int32_t`) values are integers; every arithmetic
  operation of the source (`+`, `-`, `*`, `<<`, `++`, `/`) is followed by a
  two's-complement wrap-around into the 32-bit signed range (`wrap32`).
* `x >> 14` on a signed value is the arithmetic shift, i.e. floor division by
  `2^14`; `/` is C division, truncating toward zero (`Int.tdiv`).
* The reference parameters `stage`, `stage_ticks`, `amplitude` and `gated` of the
  source are collected in the record `EGState`; every function returns the
  updated record.
-/

namespace EnvGen

/-! ## Machine arithmetic -/

/-- Two's-complement wrap-around of an integer into the `int32_t` range. -/
def wrap32 (x : Int) : Int := (x + 2147483648) % 4294967296 - 2147483648

/-- The value fits an `int32_t`. -/
def isInt32 (x : Int) : Prop := -2147483648 ≤ x ∧ x ≤ 2147483647

instance (x : Int) : Decidable (isInt32 x) := by
  unfold isInt32; infer_instance

/-- C division on `int32_t`: truncates toward zero. -/
def sdiv (a b : Int) : Int := wrap32 (Int.tdiv a b)

/-- The source's `#define int2simfloat(x) (x << 14)`. -/
def int2simfloat (x : Int) : Int := wrap32 (x * 16384)

/-- The source's `#define simfloat2int(x) (x >> 14)` (arithmetic shift). -/
def simfloat2int (x : Int) : Int := x / 16384

/-! ## Constants -/

def HEM_EG_MAX_VALUE : Int := 255
def HEM_EG_ATTACK : Int := 0
def HEM_EG_DECAY : Int := 1
def HEM_EG_SUSTAIN : Int := 2
def HEM_EG_RELEASE : Int := 3
def HEM_EG_NO_STAGE : Int := -1
def HEM_EG_MAX_TICKS_AD : Int := 33333
def HEM_EG_MAX_TICKS_R : Int := 133333

/-- Modelled from the spec: the host firmware's "maximum CV" constant
`HEMISPHERE_MAX_CV`, the positive full-scale output value. The header uses it
but does not define it; the host's value is 7680. -/
def HEMISPHERE_MAX_CV : Int := 7680

/-- Modelled from the spec: the host's clamp utility `constrain(amt, low, high)`,
"limiting an integer to an inclusive range". The header uses it but does not
define it. -/
def constrain (amt low high : Int) : Int :=
  if amt < low then low else if amt > high then high else amt

/-! ## State -/

/-- The caller-owned variables that `GetEnvelopeAmplitude` takes by reference. -/
structure EGState where
  stage : Int
  stage_ticks : Int
  amplitude : Int
  gated : Bool
  deriving DecidableEq

/-- The state a caller starts from: no stage, no ticks, silent, gate latch clear. -/
def initState : EGState :=
  { stage := HEM_EG_NO_STAGE, stage_ticks := 0, amplitude := 0, gated := false }

/-! ## The envelope generator -/

/-- `EnvelopeGenerator::Proportion`. -/
def Proportion (numerator denominator max_value : Int) : Int :=
  let proportion := sdiv (int2simfloat numerator) denominator
  let scaled := simfloat2int (wrap32 (proportion * max_value))
  scaled

/-- `EnvelopeGenerator::AttackAmplitude`. -/
def AttackAmplitude (attack : Int) (s : EGState) : EGState :=
  let effective_attack := constrain attack 1 HEM_EG_MAX_VALUE
  let total_stage_ticks := Proportion effective_attack HEM_EG_MAX_VALUE HEM_EG_MAX_TICKS_AD
  let ticks_remaining := wrap32 (total_stage_ticks - s.stage_ticks)
  let ticks_remaining := if effective_attack = 1 then 0 else ticks_remaining
  if ticks_remaining ≤ 0 then
    { s with stage := HEM_EG_DECAY, stage_ticks := 0,
             amplitude := int2simfloat HEMISPHERE_MAX_CV }
  else
    let amplitude_remaining := wrap32 (int2simfloat HEMISPHERE_MAX_CV - s.amplitude)
    let increase := sdiv amplitude_remaining ticks_remaining
    { s with amplitude := wrap32 (s.amplitude + increase) }

/-- `EnvelopeGenerator::DecayAmplitude`. -/
def DecayAmplitude (decay sustain : Int) (s : EGState) : EGState :=
  let total_stage_ticks := Proportion decay HEM_EG_MAX_VALUE HEM_EG_MAX_TICKS_AD
  let ticks_remaining := wrap32 (total_stage_ticks - s.stage_ticks)
  let amplitude_remaining :=
    wrap32 (s.amplitude - int2simfloat (Proportion sustain HEM_EG_MAX_VALUE HEMISPHERE_MAX_CV))
  let ticks_remaining := if sustain = 1 then 0 else ticks_remaining
  if ticks_remaining ≤ 0 then
    { s with stage := HEM_EG_SUSTAIN, stage_ticks := 0,
             amplitude := int2simfloat (Proportion sustain HEM_EG_MAX_VALUE HEMISPHERE_MAX_CV) }
  else
    let decrease := sdiv amplitude_remaining ticks_remaining
    { s with amplitude := wrap32 (s.amplitude - decrease) }

/-- `EnvelopeGenerator::SustainAmplitude`. -/
def SustainAmplitude (sustain : Int) (s : EGState) : EGState :=
  { s with amplitude :=
      int2simfloat (Proportion (wrap32 (sustain - 1)) HEM_EG_MAX_VALUE HEMISPHERE_MAX_CV) }

/-- `EnvelopeGenerator::ReleaseAmplitude`. -/
def ReleaseAmplitude (release : Int) (s : EGState) : EGState :=
  let effective_release := wrap32 (constrain release 1 HEM_EG_MAX_VALUE - 1)
  let total_stage_ticks := Proportion effective_release HEM_EG_MAX_VALUE HEM_EG_MAX_TICKS_R
  let ticks_remaining := wrap32 (total_stage_ticks - s.stage_ticks)
  let ticks_remaining := if effective_release = 0 then 0 else ticks_remaining
  if ticks_remaining ≤ 0 ∨ s.amplitude ≤ 0 then
    { s with stage := HEM_EG_NO_STAGE, stage_ticks := 0, amplitude := 0 }
  else
    let decrease := sdiv s.amplitude ticks_remaining
    { s with amplitude := wrap32 (s.amplitude - decrease) }

/-- `EnvelopeGenerator::GetEnvelopeAmplitude`: one tick. Returns the integer
amplitude together with the updated caller state. -/
def GetEnvelopeAmplitude (gateHigh : Bool) (attack decay sustain release : Int)
    (s : EGState) : Int × EGState :=
  let s :=
    if gateHigh then
      let s :=
        if !s.gated then
          let s := { s with stage_ticks := 0 }
          let s := if s.stage ≠ HEM_EG_RELEASE then { s with amplitude := 0 } else s
          let s := { s with stage := HEM_EG_ATTACK }
          AttackAmplitude attack s
        else
          let s := { s with stage_ticks := wrap32 (s.stage_ticks + 1) }
          let s := if s.stage = HEM_EG_ATTACK then AttackAmplitude attack s else s
          let s := if s.stage = HEM_EG_DECAY then DecayAmplitude decay sustain s else s
          let s := if s.stage = HEM_EG_SUSTAIN then SustainAmplitude sustain s else s
          s
      { s with gated := true }
    else
      let s :=
        if s.gated then { s with stage := HEM_EG_RELEASE, stage_ticks := 0 } else s
      let s :=
        if s.stage = HEM_EG_RELEASE then
          ReleaseAmplitude release { s with stage_ticks := wrap32 (s.stage_ticks + 1) }
        else s
      { s with gated := false }
  (simfloat2int s.amplitude, s)

/-! ## Runs -/

/-- The arguments of one `GetEnvelopeAmplitude` call other than the state. -/
structure EGInput where
  gateHigh : Bool
  attack : Int
  decay : Int
  sustain : Int
  release : Int
  deriving DecidableEq

/-- The state left by one call. -/
def step (s : EGState) (i : EGInput) : EGState :=
  (GetEnvelopeAmplitude i.gateHigh i.attack i.decay i.sustain i.release s).2

/-- The state left by a finite sequence of calls, one per tick. -/
def run (s : EGState) (l : List EGInput) : EGState := l.foldl step s

/-- All four parameters of a call are in the documented range `[1, 255]`. -/
def EGInput.inRange (i : EGInput) : Prop :=
  (1 ≤ i.attack ∧ i.attack ≤ 255) ∧ (1 ≤ i.decay ∧ i.decay ≤ 255) ∧
  (1 ≤ i.sustain ∧ i.sustain ≤ 255) ∧ (1 ≤ i.release ∧ i.release ≤ 255)

instance (i : EGInput) : Decidable i.inRange := by
  unfold EGInput.inRange; infer_instance

/-! ## Auxiliary definitions used to state and prove the properties -/

/-- The amplitude is inside the output range `[0, full scale]`. -/
def ampOk (s : EGState) : Prop := 0 ≤ s.amplitude ∧ s.amplitude ≤ 125829120

/-- The `ticks_remaining` local of `AttackAmplitude` at the point of its test. -/
def attackTicksRemaining (attack stage_ticks : Int) : Int :=
  if constrain attack 1 HEM_EG_MAX_VALUE = 1 then 0
  else wrap32 (Proportion (constrain attack 1 HEM_EG_MAX_VALUE) HEM_EG_MAX_VALUE
    HEM_EG_MAX_TICKS_AD - stage_ticks)

/-- The `ticks_remaining` local of `DecayAmplitude` at the point of its test. -/
def decayTicksRemaining (decay sustain stage_ticks : Int) : Int :=
  if sustain = 1 then 0
  else wrap32 (Proportion decay HEM_EG_MAX_VALUE HEM_EG_MAX_TICKS_AD - stage_ticks)

/-- The `ticks_remaining` local of `ReleaseAmplitude` at the point of its test. -/
def releaseTicksRemaining (release stage_ticks : Int) : Int :=
  if wrap32 (constrain release 1 HEM_EG_MAX_VALUE - 1) = 0 then 0
  else wrap32 (Proportion (wrap32 (constrain release 1 HEM_EG_MAX_VALUE - 1)) HEM_EG_MAX_VALUE
    HEM_EG_MAX_TICKS_R - stage_ticks)

/-- The guarded call `if (stage == HEM_EG_ATTACK) AttackAmplitude(...)`. -/
def attackIf (attack : Int) (t : EGState) : EGState :=
  if t.stage = HEM_EG_ATTACK then AttackAmplitude attack t else t

/-- The guarded call `if (stage == HEM_EG_DECAY) DecayAmplitude(...)`. -/
def decayIf (decay sustain : Int) (t : EGState) : EGState :=
  if t.stage = HEM_EG_DECAY then DecayAmplitude decay sustain t else t

/-- The guarded call `if (stage == HEM_EG_SUSTAIN) SustainAmplitude(...)`. -/
def sustainIf (sustain : Int) (t : EGState) : EGState :=
  if t.stage = HEM_EG_SUSTAIN then SustainAmplitude sustain t else t

/-- The gate latch and the stage agree: with the latch set the stage is Attack, Decay or
Sustain; with the latch clear it is Release, or Idle with no ticks and no amplitude. -/
def stageInv (s : EGState) : Prop :=
  (s.gated = true →
    s.stage = HEM_EG_ATTACK ∨ s.stage = HEM_EG_DECAY ∨ s.stage = HEM_EG_SUSTAIN) ∧
  (s.gated = false →
    s.stage = HEM_EG_RELEASE ∨
      (s.stage = HEM_EG_NO_STAGE ∧ s.stage_ticks = 0 ∧ s.amplitude = 0))

/-! ## The same code with division as a partial operation

In C a division is undefined when its divisor is zero. The definitions below repeat the
source with `/` as a partial operation: `ok` says for which divisors the division is
defined, and a call yields `none` as soon as it executes a division whose divisor is not
accepted by `ok`. -/

/-- C division, defined only for the divisors accepted by `ok`. -/
def sdivChk (ok : Int → Bool) (a b : Int) : Option Int :=
  if ok b then some (sdiv a b) else none

/-- `EnvelopeGenerator::Proportion`, with checked division. -/
def ProportionChk (ok : Int → Bool) (numerator denominator max_value : Int) : Option Int := do
  let proportion ← sdivChk ok (int2simfloat numerator) denominator
  let scaled := simfloat2int (wrap32 (proportion * max_value))
  pure scaled

/-- `EnvelopeGenerator::AttackAmplitude`, with checked division. -/
def AttackAmplitudeChk (ok : Int → Bool) (attack : Int) (s : EGState) : Option EGState := do
  let effective_attack := constrain attack 1 HEM_EG_MAX_VALUE
  let total_stage_ticks ←
    ProportionChk ok effective_attack HEM_EG_MAX_VALUE HEM_EG_MAX_TICKS_AD
  let ticks_remaining := wrap32 (total_stage_ticks - s.stage_ticks)
  let ticks_remaining := if effective_attack = 1 then 0 else ticks_remaining
  if ticks_remaining ≤ 0 then
    pure { s with stage := HEM_EG_DECAY, stage_ticks := 0,
                  amplitude := int2simfloat HEMISPHERE_MAX_CV }
  else
    let amplitude_remaining := wrap32 (int2simfloat HEMISPHERE_MAX_CV - s.amplitude)
    let increase ← sdivChk ok amplitude_remaining ticks_remaining
    pure { s with amplitude := wrap32 (s.amplitude + increase) }

/-- `EnvelopeGenerator::DecayAmplitude`, with checked division. -/
def DecayAmplitudeChk (ok : Int → Bool) (decay sustain : Int) (s : EGState) :
    Option EGState := do
  let total_stage_ticks ← ProportionChk ok decay HEM_EG_MAX_VALUE HEM_EG_MAX_TICKS_AD
  let ticks_remaining := wrap32 (total_stage_ticks - s.stage_ticks)
  let target ← ProportionChk ok sustain HEM_EG_MAX_VALUE HEMISPHERE_MAX_CV
  let amplitude_remaining := wrap32 (s.amplitude - int2simfloat target)
  let ticks_remaining := if sustain = 1 then 0 else ticks_remaining
  if ticks_remaining ≤ 0 then
    let target ← ProportionChk ok sustain HEM_EG_MAX_VALUE HEMISPHERE_MAX_CV
    pure { s with stage := HEM_EG_SUSTAIN, stage_ticks := 0, amplitude := int2simfloat target }
  else
    let decrease ← sdivChk ok amplitude_remaining ticks_remaining
    pure { s with amplitude := wrap32 (s.amplitude - decrease) }

/-- `EnvelopeGenerator::SustainAmplitude`, with checked division. -/
def SustainAmplitudeChk (ok : Int → Bool) (sustain : Int) (s : EGState) : Option EGState := do
  let level ← ProportionChk ok (wrap32 (sustain - 1)) HEM_EG_MAX_VALUE HEMISPHERE_MAX_CV
  pure { s with amplitude := int2simfloat level }

/-- `EnvelopeGenerator::ReleaseAmplitude`, with checked division. -/
def ReleaseAmplitudeChk (ok : Int → Bool) (release : Int) (s : EGState) : Option EGState := do
  let effective_release := wrap32 (constrain release 1 HEM_EG_MAX_VALUE - 1)
  let total_stage_ticks ←
    ProportionChk ok effective_release HEM_EG_MAX_VALUE HEM_EG_MAX_TICKS_R
  let ticks_remaining := wrap32 (total_stage_ticks - s.stage_ticks)
  let ticks_remaining := if effective_release = 0 then 0 else ticks_remaining
  if ticks_remaining ≤ 0 ∨ s.amplitude ≤ 0 then
    pure { s with stage := HEM_EG_NO_STAGE, stage_ticks := 0, amplitude := 0 }
  else
    let decrease ← sdivChk ok s.amplitude ticks_remaining
    pure { s with amplitude := wrap32 (s.amplitude - decrease) }

/-- `EnvelopeGenerator::GetEnvelopeAmplitude`, with checked division. -/
def GetEnvelopeAmplitudeChk (ok : Int → Bool) (gateHigh : Bool)
    (attack decay sustain release : Int) (s : EGState) : Option (Int × EGState) := do
  let s ←
    if gateHigh then do
      let s ←
        if !s.gated then do
          let s := { s with stage_ticks := 0 }
          let s := if s.stage ≠ HEM_EG_RELEASE then { s with amplitude := 0 } else s
          let s := { s with stage := HEM_EG_ATTACK }
          AttackAmplitudeChk ok attack s
        else do
          let s := { s with stage_ticks := wrap32 (s.stage_ticks + 1) }
          let s ← if s.stage = HEM_EG_ATTACK then AttackAmplitudeChk ok attack s else pure s
          let s ← if s.stage = HEM_EG_DECAY then DecayAmplitudeChk ok decay sustain s else pure s
          let s ← if s.stage = HEM_EG_SUSTAIN then SustainAmplitudeChk ok sustain s else pure s
          pure s
      pure { s with gated := true }
    else do
      let s :=
        if s.gated then { s with stage := HEM_EG_RELEASE, stage_ticks := 0 } else s
      let s ←
        if s.stage = HEM_EG_RELEASE then
          ReleaseAmplitudeChk ok release { s with stage_ticks := wrap32 (s.stage_ticks + 1) }
        else pure s
      pure { s with gated := false }
  pure (simfloat2int s.amplitude, s)

/-- Division defined for every divisor except zero: the C rule. -/
def nonzeroDivisor (b : Int) : Bool := decide (b ≠ 0)

/-- Division defined for positive divisors only. -/
def positiveDivisor (b : Int) : Bool := decide (0 < b)

/-- The sustained-gate step as the specification words it ("increment `stage_ticks`;
dispatch to the Attack, Decay, or Sustain update for the current stage"): the tick is
counted, exactly one update runs, chosen by the stage held at the start of the call, and
the latch is set. It is compared with `GetEnvelopeAmplitude` in the theorems. -/
def singleDispatch (attack decay sustain : Int) (s : EGState) : EGState :=
  let t := { s with stage_ticks := wrap32 (s.stage_ticks + 1) }
  let t :=
    if s.stage = HEM_EG_ATTACK then AttackAmplitude attack t
    else if s.stage = HEM_EG_DECAY then DecayAmplitude decay sustain t
    else if s.stage = HEM_EG_SUSTAIN then SustainAmplitude sustain t
    else t
  { t with gated := true }

/-- In Release the tick counter is a small non-negative number (it never reaches the
18-bit bound of a release duration). -/
def releaseTicksInv (s : EGState) : Prop :=
  s.stage = HEM_EG_RELEASE → 0 ≤ s.stage_ticks ∧ s.stage_ticks ≤ 131071

/-- The state after `n` calls from the initial state with the gate held high and constant
parameters. -/
def gateHeld (attack decay sustain release : Int) (n : Nat) : EGState :=
  run initState (List.replicate n ⟨true, attack, decay, sustain, release⟩)

/-- The amplitude written by the `else` branch of `DecayAmplitude` at tick count `ticks`
from amplitude `a`. -/
def decayStep (decay sustain ticks a : Int) : Int :=
  wrap32 (a - sdiv (wrap32 (a -
      int2simfloat (Proportion sustain HEM_EG_MAX_VALUE HEMISPHERE_MAX_CV)))
    (decayTicksRemaining decay sustain ticks))

/-- The amplitude in Decay at `stage_ticks = j` under constant parameters. Decay is
entered at full scale with `stage_ticks = 0`: on the rising edge when `attack ≤ 1`, and
otherwise by the call that ends the attack, which takes the first Decay step at once. -/
def decayAmp (attack decay sustain : Int) : Nat → Int
  | 0 => if attack ≤ 1 then 125829120 else decayStep decay sustain 0 125829120
  | j + 1 => decayStep decay sustain (j + 1) (decayAmp attack decay sustain j)

/-- The call is made with the given `attack`, `decay` and `sustain`. -/
def EGInput.hasParams (attack decay sustain : Int) (i : EGInput) : Prop :=
  i.attack = attack ∧ i.decay = decay ∧ i.sustain = sustain

/-- What holds of every state reached under constant `attack`, `decay`, `sustain`: with
`attack ≤ 1` the stage is never Attack; in Sustain the amplitude is the sustain level;
in Decay it is `decayAmp` of the tick count. -/
def paramInv (attack decay sustain : Int) (s : EGState) : Prop :=
  (attack ≤ 1 → s.stage ≠ HEM_EG_ATTACK) ∧
  (s.stage = HEM_EG_SUSTAIN →
    s.amplitude =
      int2simfloat (Proportion (wrap32 (sustain - 1)) HEM_EG_MAX_VALUE HEMISPHERE_MAX_CV)) ∧
  (s.stage = HEM_EG_DECAY →
    ∃ j : Nat, s.stage_ticks = j ∧ (j : Int) < 131071 ∧
      s.amplitude = decayAmp attack decay sustain j)

instance (attack decay sustain : Int) (i : EGInput) :
    Decidable (i.hasParams attack decay sustain) := by
  unfold EGInput.hasParams; infer_instance

/-! ## Theorems -/

theorem wrap32_of_isInt32 {x : Int} (h1 : -2147483648 ≤ x) (h2 : x ≤ 2147483647) :
    wrap32 x = x := by
  unfold wrap32; omega

theorem wrap32_bounds (x : Int) : -2147483648 ≤ wrap32 x ∧ wrap32 x ≤ 2147483647 := by
  unfold wrap32; omega

/-- Truncating division by a positive divisor moves toward zero, never past it. -/
theorem tdiv_bounds_nonneg {x d : Int} (hx : 0 ≤ x) (hd : 0 < d) :
    0 ≤ Int.tdiv x d ∧ Int.tdiv x d ≤ x := by
  rw [Int.tdiv_eq_ediv hx (le_of_lt hd)]
  exact ⟨Int.ediv_nonneg hx (le_of_lt hd), Int.ediv_le_self d hx⟩

theorem tdiv_bounds_nonpos {x d : Int} (hx : x ≤ 0) (hd : 0 < d) :
    x ≤ Int.tdiv x d ∧ Int.tdiv x d ≤ 0 := by
  have h := @tdiv_bounds_nonneg (-x) d (by omega) hd
  rw [Int.neg_tdiv] at h
  omega

theorem full_scale : int2simfloat HEMISPHERE_MAX_CV = 125829120 := by decide

theorem Proportion_AD {n : Int} (h1 : 0 ≤ n) (h2 : n ≤ 255) :
    Proportion n HEM_EG_MAX_VALUE HEM_EG_MAX_TICKS_AD = n * 16384 / 255 * 33333 / 16384 := by
  unfold Proportion sdiv int2simfloat simfloat2int HEM_EG_MAX_VALUE HEM_EG_MAX_TICKS_AD
  simp only []
  rw [wrap32_of_isInt32 (x := n * 16384) (by omega) (by omega)]
  rw [Int.tdiv_eq_ediv (by omega) (by omega)]
  rw [wrap32_of_isInt32 (x := n * 16384 / 255) (by omega) (by omega)]
  rw [wrap32_of_isInt32 (by omega) (by omega)]

theorem Proportion_CV {n : Int} (h1 : 0 ≤ n) (h2 : n ≤ 255) :
    Proportion n HEM_EG_MAX_VALUE HEMISPHERE_MAX_CV = n * 16384 / 255 * 7680 / 16384 := by
  unfold Proportion sdiv int2simfloat simfloat2int HEM_EG_MAX_VALUE HEMISPHERE_MAX_CV
  simp only []
  rw [wrap32_of_isInt32 (x := n * 16384) (by omega) (by omega)]
  rw [Int.tdiv_eq_ediv (by omega) (by omega)]
  rw [wrap32_of_isInt32 (x := n * 16384 / 255) (by omega) (by omega)]
  rw [wrap32_of_isInt32 (by omega) (by omega)]


theorem AttackAmplitude_eq (attack : Int) (s : EGState) :
    AttackAmplitude attack s =
      if attackTicksRemaining attack s.stage_ticks ≤ 0 then
        { s with stage := HEM_EG_DECAY, stage_ticks := 0, amplitude := 125829120 }
      else
        { s with amplitude := wrap32 (s.amplitude +
            sdiv (wrap32 (125829120 - s.amplitude)) (attackTicksRemaining attack s.stage_ticks)) } := by
  rw [← full_scale]; rfl

theorem DecayAmplitude_eq (decay sustain : Int) (s : EGState) :
    DecayAmplitude decay sustain s =
      if decayTicksRemaining decay sustain s.stage_ticks ≤ 0 then
        { s with stage := HEM_EG_SUSTAIN, stage_ticks := 0,
                 amplitude := int2simfloat (Proportion sustain HEM_EG_MAX_VALUE HEMISPHERE_MAX_CV) }
      else
        { s with amplitude := wrap32 (s.amplitude -
            sdiv (wrap32 (s.amplitude -
                int2simfloat (Proportion sustain HEM_EG_MAX_VALUE HEMISPHERE_MAX_CV)))
              (decayTicksRemaining decay sustain s.stage_ticks)) } := rfl

theorem ReleaseAmplitude_eq (release : Int) (s : EGState) :
    ReleaseAmplitude release s =
      if releaseTicksRemaining release s.stage_ticks ≤ 0 ∨ s.amplitude ≤ 0 then
        { s with stage := HEM_EG_NO_STAGE, stage_ticks := 0, amplitude := 0 }
      else
        { s with amplitude := wrap32 (s.amplitude -
            sdiv s.amplitude (releaseTicksRemaining release s.stage_ticks)) } := rfl

theorem AttackAmplitude_ampOk (attack : Int) (s : EGState) (h : ampOk s) :
    ampOk (AttackAmplitude attack s) := by
  unfold ampOk at *
  rw [AttackAmplitude_eq]
  split
  · simp
  · rename_i hr
    have hr' := not_le.mp hr
    have hw : wrap32 (125829120 - s.amplitude) = 125829120 - s.amplitude :=
      wrap32_of_isInt32 (by omega) (by omega)
    have hq := tdiv_bounds_nonneg (x := 125829120 - s.amplitude) (by omega) hr'
    simp only [sdiv, hw]
    generalize Int.tdiv (125829120 - s.amplitude) _ = q at hq
    rw [wrap32_of_isInt32 (x := q) (by omega) (by omega)]
    rw [wrap32_of_isInt32 (by omega) (by omega)]
    omega

theorem Proportion_CV_bounds {sustain : Int} (h1 : 0 ≤ sustain) (h2 : sustain ≤ 255) :
    0 ≤ Proportion sustain HEM_EG_MAX_VALUE HEMISPHERE_MAX_CV ∧
    Proportion sustain HEM_EG_MAX_VALUE HEMISPHERE_MAX_CV ≤ 7680 := by
  rw [Proportion_CV h1 h2]
  omega

theorem target_bounds {sustain : Int} (h1 : 0 ≤ sustain) (h2 : sustain ≤ 255) :
    0 ≤ int2simfloat (Proportion sustain HEM_EG_MAX_VALUE HEMISPHERE_MAX_CV) ∧
    int2simfloat (Proportion sustain HEM_EG_MAX_VALUE HEMISPHERE_MAX_CV) ≤ 125829120 := by
  have hb := Proportion_CV_bounds h1 h2
  generalize Proportion sustain HEM_EG_MAX_VALUE HEMISPHERE_MAX_CV = p at hb
  unfold int2simfloat wrap32
  omega

theorem DecayAmplitude_ampOk (decay sustain : Int) (s : EGState)
    (h1 : 0 ≤ sustain) (h2 : sustain ≤ 255) (h : ampOk s) :
    ampOk (DecayAmplitude decay sustain s) := by
  unfold ampOk at *
  have ht := target_bounds h1 h2
  rw [DecayAmplitude_eq]
  generalize int2simfloat (Proportion sustain HEM_EG_MAX_VALUE HEMISPHERE_MAX_CV) = t at ht
  split
  · simpa using ht
  · rename_i hr
    have hr' := not_le.mp hr
    have hw : wrap32 (s.amplitude - t) = s.amplitude - t :=
      wrap32_of_isInt32 (by omega) (by omega)
    simp only [sdiv, hw]
    rcases le_total 0 (s.amplitude - t) with hx | hx
    · have hq := tdiv_bounds_nonneg hx hr'
      generalize Int.tdiv (s.amplitude - t) _ = q at hq
      rw [wrap32_of_isInt32 (x := q) (by omega) (by omega)]
      rw [wrap32_of_isInt32 (by omega) (by omega)]
      omega
    · have hq := tdiv_bounds_nonpos hx hr'
      generalize Int.tdiv (s.amplitude - t) _ = q at hq
      rw [wrap32_of_isInt32 (x := q) (by omega) (by omega)]
      rw [wrap32_of_isInt32 (by omega) (by omega)]
      omega

theorem SustainAmplitude_ampOk (sustain : Int) (s : EGState)
    (h1 : 1 ≤ sustain) (h2 : sustain ≤ 256) :
    ampOk (SustainAmplitude sustain s) := by
  unfold ampOk SustainAmplitude
  rw [wrap32_of_isInt32 (x := sustain - 1) (by omega) (by omega)]
  exact target_bounds (by omega) (by omega)

theorem ReleaseAmplitude_amp_le (release : Int) (s : EGState)
    (h0 : 0 ≤ s.amplitude) (h1 : s.amplitude ≤ 2147483647) :
    0 ≤ (ReleaseAmplitude release s).amplitude ∧
    (ReleaseAmplitude release s).amplitude ≤ s.amplitude := by
  rw [ReleaseAmplitude_eq]
  split
  · simpa using h0
  · rename_i hr
    have hr' := not_le.mp (not_or.mp hr).1
    have hq := tdiv_bounds_nonneg h0 hr'
    simp only [sdiv]
    generalize Int.tdiv s.amplitude _ = q at hq
    rw [wrap32_of_isInt32 (x := q) (by omega) (by omega)]
    rw [wrap32_of_isInt32 (by omega) (by omega)]
    omega

theorem ReleaseAmplitude_ampOk (release : Int) (s : EGState) (h : ampOk s) :
    ampOk (ReleaseAmplitude release s) := by
  unfold ampOk at *
  have := ReleaseAmplitude_amp_le release s h.1 (by omega)
  omega


theorem GetEnvelopeAmplitude_ret (g : Bool) (attack decay sustain release : Int) (s : EGState) :
    (GetEnvelopeAmplitude g attack decay sustain release s).1 =
      simfloat2int (GetEnvelopeAmplitude g attack decay sustain release s).2.amplitude := rfl

/-- Rising edge: gate high, latch clear. -/
theorem GetEnvelopeAmplitude_rising (attack decay sustain release : Int) (s : EGState)
    (hg : s.gated = false) :
    (GetEnvelopeAmplitude true attack decay sustain release s).2 =
      { AttackAmplitude attack
          { stage := HEM_EG_ATTACK, stage_ticks := 0,
            amplitude := if s.stage ≠ HEM_EG_RELEASE then 0 else s.amplitude,
            gated := s.gated } with gated := true } := by
  unfold GetEnvelopeAmplitude
  simp only [hg, if_true, Bool.not_false]
  split <;> rfl

/-- Sustained gate: gate high, latch set. -/
theorem GetEnvelopeAmplitude_held (attack decay sustain release : Int) (s : EGState)
    (hg : s.gated = true) :
    (GetEnvelopeAmplitude true attack decay sustain release s).2 =
      { sustainIf sustain (decayIf decay sustain (attackIf attack
          { s with stage_ticks := wrap32 (s.stage_ticks + 1) })) with gated := true } := by
  unfold GetEnvelopeAmplitude
  simp only [hg, if_true, Bool.not_true, Bool.false_eq_true, if_false]
  rfl

/-- Falling edge: gate low, latch set. -/
theorem GetEnvelopeAmplitude_falling (attack decay sustain release : Int) (s : EGState)
    (hg : s.gated = true) :
    (GetEnvelopeAmplitude false attack decay sustain release s).2 =
      { ReleaseAmplitude release
          { s with stage := HEM_EG_RELEASE, stage_ticks := wrap32 (0 + 1) } with gated := false } := by
  unfold GetEnvelopeAmplitude
  simp only [hg, if_true, Bool.false_eq_true, if_false]

/-- Gate low, latch clear, stage is Release. -/
theorem GetEnvelopeAmplitude_low_release (attack decay sustain release : Int) (s : EGState)
    (hg : s.gated = false) (hs : s.stage = HEM_EG_RELEASE) :
    (GetEnvelopeAmplitude false attack decay sustain release s).2 =
      { ReleaseAmplitude release
          { s with stage_ticks := wrap32 (s.stage_ticks + 1) } with gated := false } := by
  unfold GetEnvelopeAmplitude
  simp only [hg, hs, if_true, Bool.false_eq_true, if_false]

/-- Gate low, latch clear, stage is not Release: nothing but the latch is written. -/
theorem GetEnvelopeAmplitude_low_other (attack decay sustain release : Int) (s : EGState)
    (hg : s.gated = false) (hs : s.stage ≠ HEM_EG_RELEASE) :
    (GetEnvelopeAmplitude false attack decay sustain release s).2 = s := by
  unfold GetEnvelopeAmplitude
  simp only [hg, hs, if_true, Bool.false_eq_true, if_false]
  cases s; simp_all


theorem GetEnvelopeAmplitude_ampOk (g : Bool) (attack decay sustain release : Int)
    (s : EGState) (hs1 : 1 ≤ sustain) (hs2 : sustain ≤ 255) (h : ampOk s) :
    ampOk (GetEnvelopeAmplitude g attack decay sustain release s).2 := by
  cases g <;> cases hg : s.gated
  · by_cases hst : s.stage = HEM_EG_RELEASE
    · rw [GetEnvelopeAmplitude_low_release _ _ _ _ _ hg hst]
      exact ReleaseAmplitude_ampOk _ _ h
    · rw [GetEnvelopeAmplitude_low_other _ _ _ _ _ hg hst]
      exact h
  · rw [GetEnvelopeAmplitude_falling _ _ _ _ _ hg]
    exact ReleaseAmplitude_ampOk _ _ h
  · rw [GetEnvelopeAmplitude_rising _ _ _ _ _ hg]
    apply AttackAmplitude_ampOk attack
    unfold ampOk at *
    simp only
    split <;> omega
  · rw [GetEnvelopeAmplitude_held _ _ _ _ _ hg]
    have hA : ∀ t : EGState, ampOk t → ampOk (attackIf attack t) := by
      intro t ht; unfold attackIf; split
      · exact AttackAmplitude_ampOk _ _ ht
      · exact ht
    have hD : ∀ t : EGState, ampOk t → ampOk (decayIf decay sustain t) := by
      intro t ht; unfold decayIf; split
      · exact DecayAmplitude_ampOk _ _ _ (by omega) hs2 ht
      · exact ht
    have hS : ∀ t : EGState, ampOk t → ampOk (sustainIf sustain t) := by
      intro t ht; unfold sustainIf; split
      · exact SustainAmplitude_ampOk _ _ hs1 (by omega)
      · exact ht
    exact hS _ (hD _ (hA _ h))

theorem run_append_single (s : EGState) (l : List EGInput) (i : EGInput) :
    run s (l ++ [i]) = step (run s l) i := by
  simp [run, List.foldl_append]

theorem run_ampOk (l : List EGInput) (hl : ∀ i ∈ l, i.inRange) (s : EGState) (h : ampOk s) :
    ampOk (run s l) := by
  induction l generalizing s with
  | nil => exact h
  | cons i l ih =>
    have hi : i.inRange := hl i (List.mem_cons_self _ _)
    exact ih (fun j hj => hl j (List.mem_cons_of_mem _ hj)) _
      (GetEnvelopeAmplitude_ampOk _ _ _ _ _ _ hi.2.2.1.1 hi.2.2.1.2 h)

/-- C1: bounded-output invariant. Starting from the initial state, after any finite
sequence of calls whose parameters are all in `[1, 255]` (gates arbitrary, parameters
free to change between calls), the next such call leaves a fixed-point amplitude in
`[0, HEMISPHERE_MAX_CV * 2^14]` and returns an integer in `[0, HEMISPHERE_MAX_CV]`. -/
theorem C1_bounded_output (l : List EGInput) (hl : ∀ j ∈ l, j.inRange)
    (i : EGInput) (hi : i.inRange) :
    (0 ≤ (GetEnvelopeAmplitude i.gateHigh i.attack i.decay i.sustain i.release
            (run initState l)).2.amplitude ∧
      (GetEnvelopeAmplitude i.gateHigh i.attack i.decay i.sustain i.release
            (run initState l)).2.amplitude ≤ HEMISPHERE_MAX_CV * 2 ^ 14) ∧
    (0 ≤ (GetEnvelopeAmplitude i.gateHigh i.attack i.decay i.sustain i.release
            (run initState l)).1 ∧
      (GetEnvelopeAmplitude i.gateHigh i.attack i.decay i.sustain i.release
            (run initState l)).1 ≤ HEMISPHERE_MAX_CV) := by
  have h0 : ampOk initState := by unfold ampOk initState; simp
  have h := GetEnvelopeAmplitude_ampOk i.gateHigh i.attack i.decay i.sustain i.release _
    hi.2.2.1.1 hi.2.2.1.2 (run_ampOk l hl _ h0)
  rw [GetEnvelopeAmplitude_ret]
  unfold ampOk at h
  generalize (GetEnvelopeAmplitude i.gateHigh i.attack i.decay i.sustain i.release
      (run initState l)).2.amplitude = a at h
  unfold simfloat2int HEMISPHERE_MAX_CV
  omega

/-- C1 at a concrete run: a trigger, a release tick, then a retrigger with all parameters
at 255. -/
theorem C1_bounded_output_witness :
    (∀ j ∈ [(⟨true, 2, 1, 128, 200⟩ : EGInput), ⟨false, 2, 1, 128, 200⟩], j.inRange) ∧
    (⟨true, 255, 255, 255, 255⟩ : EGInput).inRange ∧
    (0 ≤ (GetEnvelopeAmplitude true 255 255 255 255
            (run initState [⟨true, 2, 1, 128, 200⟩, ⟨false, 2, 1, 128, 200⟩])).2.amplitude ∧
      (GetEnvelopeAmplitude true 255 255 255 255
            (run initState [⟨true, 2, 1, 128, 200⟩, ⟨false, 2, 1, 128, 200⟩])).2.amplitude
          ≤ HEMISPHERE_MAX_CV * 2 ^ 14) ∧
    (0 ≤ (GetEnvelopeAmplitude true 255 255 255 255
            (run initState [⟨true, 2, 1, 128, 200⟩, ⟨false, 2, 1, 128, 200⟩])).1 ∧
      (GetEnvelopeAmplitude true 255 255 255 255
            (run initState [⟨true, 2, 1, 128, 200⟩, ⟨false, 2, 1, 128, 200⟩])).1
          ≤ HEMISPHERE_MAX_CV) :=
  ⟨by decide, by decide,
    C1_bounded_output [⟨true, 2, 1, 128, 200⟩, ⟨false, 2, 1, 128, 200⟩] (by decide)
      ⟨true, 255, 255, 255, 255⟩ (by decide)⟩


theorem constrain_bounds (x : Int) : 1 ≤ constrain x 1 HEM_EG_MAX_VALUE ∧
    constrain x 1 HEM_EG_MAX_VALUE ≤ 255 := by
  unfold constrain HEM_EG_MAX_VALUE
  split
  · omega
  · split <;> omega

theorem constrain_of_inRange {x : Int} (h1 : 1 ≤ x) (h2 : x ≤ 255) :
    constrain x 1 HEM_EG_MAX_VALUE = x := by
  unfold constrain HEM_EG_MAX_VALUE
  split
  · omega
  · split <;> omega

theorem constrain_ge_two {x : Int} (h : 2 ≤ x) : 2 ≤ constrain x 1 HEM_EG_MAX_VALUE := by
  unfold constrain HEM_EG_MAX_VALUE
  split
  · omega
  · split <;> omega

/-- Attack and decay durations: at least 130 ticks, at most the 33333-tick maximum. -/
theorem Proportion_AD_bounds {n : Int} (h1 : 1 ≤ n) (h2 : n ≤ 255) :
    130 ≤ Proportion n HEM_EG_MAX_VALUE HEM_EG_MAX_TICKS_AD ∧
    Proportion n HEM_EG_MAX_VALUE HEM_EG_MAX_TICKS_AD ≤ 33333 := by
  rw [Proportion_AD (by omega) h2]
  omega

theorem attackTicksRemaining_eq (attack stage_ticks : Int) (ha : 2 ≤ attack)
    (h0 : 0 ≤ stage_ticks) (h1 : stage_ticks ≤ 2147483647) :
    attackTicksRemaining attack stage_ticks =
      Proportion (constrain attack 1 HEM_EG_MAX_VALUE) HEM_EG_MAX_VALUE HEM_EG_MAX_TICKS_AD
        - stage_ticks := by
  have hc := constrain_bounds attack
  have hc2 := constrain_ge_two ha
  have hT := Proportion_AD_bounds hc.1 hc.2
  unfold attackTicksRemaining
  rw [if_neg (by omega)]
  exact wrap32_of_isInt32 (by omega) (by omega)

/-- The state left by a rising-edge call when `attack ≥ 2`. -/
theorem rising_state (attack decay sustain release : Int) (s : EGState)
    (hg : s.gated = false) (ha : 2 ≤ attack) :
    (GetEnvelopeAmplitude true attack decay sustain release s).2 =
      { stage := HEM_EG_ATTACK, stage_ticks := 0,
        amplitude := wrap32 ((if s.stage ≠ HEM_EG_RELEASE then 0 else s.amplitude) +
          sdiv (wrap32 (125829120 - (if s.stage ≠ HEM_EG_RELEASE then 0 else s.amplitude)))
            (Proportion (constrain attack 1 HEM_EG_MAX_VALUE) HEM_EG_MAX_VALUE
              HEM_EG_MAX_TICKS_AD)),
        gated := true } := by
  have hc := constrain_bounds attack
  have hTb := Proportion_AD_bounds hc.1 hc.2
  have htr := attackTicksRemaining_eq attack (0) ha (le_refl _) (by omega)
  rw [sub_zero] at htr
  rw [GetEnvelopeAmplitude_rising _ _ _ _ _ hg, AttackAmplitude_eq]
  dsimp only
  rw [htr, if_neg (by omega)]

/-- C5: retrigger. On a rising-edge call (gate high, latch clear) with `attack ≥ 2` and
attack duration `T = Proportion(clamp(attack,1,255), 255, 33333) ≥ 1`, writing
`FULL = HEMISPHERE_MAX_CV * 2^14`: the stage becomes Attack, `stage_ticks` 0 and the
latch is set; if the stage before was Release with amplitude `a` in `[0, FULL]`, the new
amplitude is `a + (FULL - a) / T` (truncating), which is at least `a`; if it was Idle,
the new amplitude is `FULL / T` whatever the previous amplitude. -/
theorem C5_retrigger (attack decay sustain release : Int) (s : EGState)
    (hg : s.gated = false) (ha : 2 ≤ attack)
    (hT : 1 ≤ Proportion (constrain attack 1 HEM_EG_MAX_VALUE) HEM_EG_MAX_VALUE
      HEM_EG_MAX_TICKS_AD) :
    (GetEnvelopeAmplitude true attack decay sustain release s).2.stage = HEM_EG_ATTACK ∧
    (GetEnvelopeAmplitude true attack decay sustain release s).2.stage_ticks = 0 ∧
    (GetEnvelopeAmplitude true attack decay sustain release s).2.gated = true ∧
    (s.stage = HEM_EG_RELEASE → 0 ≤ s.amplitude → s.amplitude ≤ HEMISPHERE_MAX_CV * 2 ^ 14 →
      (GetEnvelopeAmplitude true attack decay sustain release s).2.amplitude =
          s.amplitude + Int.tdiv (HEMISPHERE_MAX_CV * 2 ^ 14 - s.amplitude)
            (Proportion (constrain attack 1 HEM_EG_MAX_VALUE) HEM_EG_MAX_VALUE
              HEM_EG_MAX_TICKS_AD) ∧
        s.amplitude ≤ (GetEnvelopeAmplitude true attack decay sustain release s).2.amplitude) ∧
    (s.stage = HEM_EG_NO_STAGE →
      (GetEnvelopeAmplitude true attack decay sustain release s).2.amplitude =
        Int.tdiv (HEMISPHERE_MAX_CV * 2 ^ 14)
          (Proportion (constrain attack 1 HEM_EG_MAX_VALUE) HEM_EG_MAX_VALUE
            HEM_EG_MAX_TICKS_AD)) := by
  rw [rising_state _ _ _ _ _ hg ha]
  have hF : HEMISPHERE_MAX_CV * 2 ^ 14 = 125829120 := by decide
  rw [hF]
  generalize Proportion (constrain attack 1 HEM_EG_MAX_VALUE) HEM_EG_MAX_VALUE
    HEM_EG_MAX_TICKS_AD = T at hT
  refine ⟨rfl, rfl, rfl, ?_, ?_⟩
  · intro hst h0 h1
    simp only [hst, ne_eq, not_true_eq_false, if_false]
    have hw : wrap32 (125829120 - s.amplitude) = 125829120 - s.amplitude :=
      wrap32_of_isInt32 (by omega) (by omega)
    have hq := tdiv_bounds_nonneg (x := 125829120 - s.amplitude) (d := T) (by omega) (by omega)
    simp only [sdiv, hw]
    generalize Int.tdiv (125829120 - s.amplitude) T = q at hq
    rw [wrap32_of_isInt32 (x := q) (by omega) (by omega)]
    rw [wrap32_of_isInt32 (by omega) (by omega)]
    omega
  · intro hst
    have hne : s.stage ≠ HEM_EG_RELEASE := by rw [hst]; decide
    simp only [hne, ne_eq, not_false_eq_true, if_true]
    have hq := tdiv_bounds_nonneg (x := 125829120) (d := T) (by omega) (by omega)
    simp only [sdiv, sub_zero, zero_add]
    rw [wrap32_of_isInt32 (x := 125829120) (by omega) (by omega)]
    generalize Int.tdiv 125829120 T = q at hq
    rw [wrap32_of_isInt32 (x := q) (by omega) (by omega)]
    rw [wrap32_of_isInt32 (by omega) (by omega)]

/-- C5 at a concrete state: a retrigger out of Release at amplitude 1000000 with
`attack = 2`. -/
theorem C5_retrigger_witness :
    (GetEnvelopeAmplitude true 2 1 128 200 ⟨HEM_EG_RELEASE, 7, 1000000, false⟩).2.stage
      = HEM_EG_ATTACK ∧
    (GetEnvelopeAmplitude true 2 1 128 200 ⟨HEM_EG_RELEASE, 7, 1000000, false⟩).2.stage_ticks
      = 0 ∧
    (GetEnvelopeAmplitude true 2 1 128 200 ⟨HEM_EG_RELEASE, 7, 1000000, false⟩).2.gated
      = true ∧
    ((⟨HEM_EG_RELEASE, 7, 1000000, false⟩ : EGState).stage = HEM_EG_RELEASE →
      0 ≤ (⟨HEM_EG_RELEASE, 7, 1000000, false⟩ : EGState).amplitude →
      (⟨HEM_EG_RELEASE, 7, 1000000, false⟩ : EGState).amplitude ≤ HEMISPHERE_MAX_CV * 2 ^ 14 →
      (GetEnvelopeAmplitude true 2 1 128 200 ⟨HEM_EG_RELEASE, 7, 1000000, false⟩).2.amplitude =
          (⟨HEM_EG_RELEASE, 7, 1000000, false⟩ : EGState).amplitude +
            Int.tdiv (HEMISPHERE_MAX_CV * 2 ^ 14 -
                (⟨HEM_EG_RELEASE, 7, 1000000, false⟩ : EGState).amplitude)
              (Proportion (constrain 2 1 HEM_EG_MAX_VALUE) HEM_EG_MAX_VALUE
                HEM_EG_MAX_TICKS_AD) ∧
        (⟨HEM_EG_RELEASE, 7, 1000000, false⟩ : EGState).amplitude ≤
          (GetEnvelopeAmplitude true 2 1 128 200
            ⟨HEM_EG_RELEASE, 7, 1000000, false⟩).2.amplitude) ∧
    ((⟨HEM_EG_RELEASE, 7, 1000000, false⟩ : EGState).stage = HEM_EG_NO_STAGE →
      (GetEnvelopeAmplitude true 2 1 128 200 ⟨HEM_EG_RELEASE, 7, 1000000, false⟩).2.amplitude =
        Int.tdiv (HEMISPHERE_MAX_CV * 2 ^ 14)
          (Proportion (constrain 2 1 HEM_EG_MAX_VALUE) HEM_EG_MAX_VALUE
            HEM_EG_MAX_TICKS_AD)) :=
  C5_retrigger 2 1 128 200 ⟨HEM_EG_RELEASE, 7, 1000000, false⟩ rfl (by decide) (by decide)

/-- C2 (failing input): `DecayAmplitude` uses `sustain` and `decay` unclamped. After the
first gate-high tick with `attack = 1` the state is Decay at full scale; a second
gate-high call with the out-of-range `sustain = 0` ramps on in Decay from a target of 0,
while the same call with `sustain` clamped to 1 ends in Sustain at amplitude 0. Likewise
`decay = 300` gives a different result from `decay = 255`. -/
theorem C2_unclamped_decay_sustain :
    (GetEnvelopeAmplitude true 1 10 0 10 initState).2 = ⟨HEM_EG_DECAY, 0, 125829120, true⟩ ∧
    GetEnvelopeAmplitude true 1 10 0 10 ⟨HEM_EG_DECAY, 0, 125829120, true⟩ =
      (7674, ⟨HEM_EG_DECAY, 1, 125732700, true⟩) ∧
    GetEnvelopeAmplitude true (constrain 1 1 255) (constrain 10 1 255) (constrain 0 1 255)
        (constrain 10 1 255) ⟨HEM_EG_DECAY, 0, 125829120, true⟩ =
      (0, ⟨HEM_EG_SUSTAIN, 0, 0, true⟩) ∧
    GetEnvelopeAmplitude true 1 300 128 10 ⟨HEM_EG_DECAY, 0, 125829120, true⟩ =
      (7679, ⟨HEM_EG_DECAY, 1, 125827522, true⟩) ∧
    GetEnvelopeAmplitude true (constrain 1 1 255) (constrain 300 1 255) (constrain 128 1 255)
        (constrain 10 1 255) ⟨HEM_EG_DECAY, 0, 125829120, true⟩ =
      (7679, ⟨HEM_EG_DECAY, 1, 125827240, true⟩) := by
  decide

/-- C3 (failing input): for `release = 252` the product inside `Proportion` is
`16126 * 133333 = 2150127958`, above `2^31 - 1`; it wraps, and the `total_stage_ticks`
of `ReleaseAmplitude` comes out as `-130911` instead of the un-overflowed `131233`, so a
release from full scale ends at once, where `release = 251` keeps the stage in Release. -/
theorem C3_release_duration_overflow :
    Proportion (wrap32 (constrain 252 1 HEM_EG_MAX_VALUE - 1)) HEM_EG_MAX_VALUE
        HEM_EG_MAX_TICKS_R = -130911 ∧
    (252 - 1) * 2 ^ 14 / 255 * 133333 / 2 ^ 14 = (131233 : Int) ∧
    ReleaseAmplitude 252 ⟨HEM_EG_RELEASE, 1, 125829120, false⟩ =
      ⟨HEM_EG_NO_STAGE, 0, 0, false⟩ ∧
    ReleaseAmplitude 251 ⟨HEM_EG_RELEASE, 1, 125829120, false⟩ =
      ⟨HEM_EG_RELEASE, 1, 125828158, false⟩ := by
  decide

/-! ### Shape of the stage updates -/

theorem AttackAmplitude_cases (attack : Int) (t : EGState) :
    (∃ a, AttackAmplitude attack t = { t with amplitude := a }) ∨
    AttackAmplitude attack t =
      { t with stage := HEM_EG_DECAY, stage_ticks := 0, amplitude := 125829120 } := by
  rw [AttackAmplitude_eq]
  split
  · exact Or.inr rfl
  · exact Or.inl ⟨_, rfl⟩

theorem DecayAmplitude_cases (decay sustain : Int) (t : EGState) :
    (∃ a, DecayAmplitude decay sustain t = { t with amplitude := a }) ∨
    DecayAmplitude decay sustain t =
      { t with stage := HEM_EG_SUSTAIN, stage_ticks := 0,
               amplitude := int2simfloat (Proportion sustain HEM_EG_MAX_VALUE HEMISPHERE_MAX_CV) } := by
  rw [DecayAmplitude_eq]
  split
  · exact Or.inr rfl
  · exact Or.inl ⟨_, rfl⟩

theorem ReleaseAmplitude_cases (release : Int) (t : EGState) :
    (∃ a, ReleaseAmplitude release t = { t with amplitude := a }) ∨
    ReleaseAmplitude release t =
      { t with stage := HEM_EG_NO_STAGE, stage_ticks := 0, amplitude := 0 } := by
  rw [ReleaseAmplitude_eq]
  split
  · exact Or.inr rfl
  · exact Or.inl ⟨_, rfl⟩

/-- What a sustained-gate call can do to stage and `stage_ticks`, by the stage held at
the start of the call: it keeps both (up to the tick increment), or moves forward to
Decay or Sustain with `stage_ticks = 0`. -/
theorem held_shape (attack decay sustain : Int) (t : EGState)
    (ht : t.stage = HEM_EG_ATTACK ∨ t.stage = HEM_EG_DECAY ∨ t.stage = HEM_EG_SUSTAIN) :
    ((sustainIf sustain (decayIf decay sustain (attackIf attack t))).stage = t.stage ∧
      (sustainIf sustain (decayIf decay sustain (attackIf attack t))).stage_ticks
        = t.stage_ticks) ∨
    (((sustainIf sustain (decayIf decay sustain (attackIf attack t))).stage = HEM_EG_DECAY ∨
      (sustainIf sustain (decayIf decay sustain (attackIf attack t))).stage = HEM_EG_SUSTAIN) ∧
      (sustainIf sustain (decayIf decay sustain (attackIf attack t))).stage_ticks = 0) := by
  have hAD : HEM_EG_ATTACK ≠ HEM_EG_DECAY := by decide
  have hAS : HEM_EG_ATTACK ≠ HEM_EG_SUSTAIN := by decide
  have hDS : HEM_EG_DECAY ≠ HEM_EG_SUSTAIN := by decide
  rcases ht with ht | ht | ht
  · rcases AttackAmplitude_cases attack t with ⟨a, ha⟩ | ha
    · left
      simp [attackIf, decayIf, sustainIf, ht, ha, hAD, hAS]
    · right
      rcases DecayAmplitude_cases decay sustain
          { t with stage := HEM_EG_DECAY, stage_ticks := 0, amplitude := 125829120 }
        with ⟨d, hd⟩ | hd
      · simp [attackIf, decayIf, sustainIf, ht, ha, hd, hDS]
      · simp [attackIf, decayIf, sustainIf, ht, ha, hd, SustainAmplitude]
  · rcases DecayAmplitude_cases decay sustain t with ⟨d, hd⟩ | hd
    · left
      simp [attackIf, decayIf, sustainIf, ht, hd, hAD.symm, hDS]
    · right
      simp [attackIf, decayIf, sustainIf, ht, hd, hAD.symm, SustainAmplitude]
  · left
    simp [attackIf, decayIf, sustainIf, ht, hAS.symm, hDS.symm, SustainAmplitude]

theorem wrap32_one : wrap32 (0 + 1) = 1 := by decide

/-- One call preserves the agreement of latch and stage, whatever the arguments. -/
theorem step_stageInv (s : EGState) (i : EGInput) (h : stageInv s) : stageInv (step s i) := by
  obtain ⟨g, attack, decay, sustain, release⟩ := i
  unfold step
  dsimp only
  cases g <;> cases hg : s.gated
  · by_cases hst : s.stage = HEM_EG_RELEASE
    · rw [GetEnvelopeAmplitude_low_release _ _ _ _ _ hg hst]
      refine ⟨fun hc => by simp at hc, fun _ => ?_⟩
      rcases ReleaseAmplitude_cases release { s with stage_ticks := wrap32 (s.stage_ticks + 1) }
        with ⟨a, ha⟩ | ha
      · left; rw [ha]; exact hst
      · right; rw [ha]; exact ⟨rfl, rfl, rfl⟩
    · rw [GetEnvelopeAmplitude_low_other _ _ _ _ _ hg hst]
      exact h
  · rw [GetEnvelopeAmplitude_falling _ _ _ _ _ hg]
    refine ⟨fun hc => by simp at hc, fun _ => ?_⟩
    rcases ReleaseAmplitude_cases release
        { s with stage := HEM_EG_RELEASE, stage_ticks := wrap32 (0 + 1) } with ⟨a, ha⟩ | ha
    · left; rw [ha]
    · right; rw [ha]; exact ⟨rfl, rfl, rfl⟩
  · rw [GetEnvelopeAmplitude_rising _ _ _ _ _ hg]
    refine ⟨fun _ => ?_, fun hc => by simp at hc⟩
    rcases AttackAmplitude_cases attack
        { stage := HEM_EG_ATTACK, stage_ticks := 0,
          amplitude := if s.stage ≠ HEM_EG_RELEASE then 0 else s.amplitude,
          gated := s.gated } with ⟨a, ha⟩ | ha
    · left; rw [ha]
    · right; left; rw [ha]
  · rw [GetEnvelopeAmplitude_held _ _ _ _ _ hg]
    refine ⟨fun _ => ?_, fun hc => by simp at hc⟩
    have h3 := h.1 hg
    rcases held_shape attack decay sustain
        { s with stage_ticks := wrap32 (s.stage_ticks + 1) } h3 with hk | hk
    · have : (sustainIf sustain (decayIf decay sustain (attackIf attack
          { s with stage_ticks := wrap32 (s.stage_ticks + 1) }))).stage = s.stage := hk.1
      show _ = _ ∨ _ = _ ∨ _ = _
      simpa [this] using h3
    · rcases hk.1 with hk1 | hk1
      · exact Or.inr (Or.inl hk1)
      · exact Or.inr (Or.inr hk1)

theorem initState_stageInv : stageInv initState := by
  unfold stageInv initState
  simp

theorem run_stageInv (l : List EGInput) (s : EGState) (h : stageInv s) :
    stageInv (run s l) := by
  induction l generalizing s with
  | nil => exact h
  | cons i l ih => exact ih _ (step_stageInv s i h)

/-- C6: Idle is a silent fixed point. In every state reached from the initial state by any
sequence of calls (any gates, any integer parameters) whose stage is Idle, the amplitude
is 0; a gate-low call with any parameters returns 0 and leaves the state unchanged; hence
any sequence of further gate-low calls leaves that same state, Idle with amplitude 0. -/
theorem C6_idle_fixed_point (l : List EGInput)
    (hidle : (run initState l).stage = HEM_EG_NO_STAGE) :
    (run initState l).amplitude = 0 ∧
    (∀ attack decay sustain release : Int,
      GetEnvelopeAmplitude false attack decay sustain release (run initState l) =
        (0, run initState l)) ∧
    (∀ l2 : List EGInput, (∀ j ∈ l2, j.gateHigh = false) →
      run (run initState l) l2 = run initState l ∧
      (run (run initState l) l2).stage = HEM_EG_NO_STAGE ∧
      (run (run initState l) l2).amplitude = 0) := by
  have hinv := run_stageInv l initState initState_stageInv
  generalize run initState l = s at hidle hinv
  have hne : s.stage ≠ HEM_EG_RELEASE := by rw [hidle]; decide
  have hg : s.gated = false := by
    cases hgc : s.gated
    · rfl
    · rcases hinv.1 hgc with h | h | h <;> rw [hidle] at h <;> exact absurd h (by decide)
  have hamp : s.amplitude = 0 := by
    rcases hinv.2 hg with h | h
    · exact absurd h hne
    · exact h.2.2
  have hcall : ∀ attack decay sustain release : Int,
      GetEnvelopeAmplitude false attack decay sustain release s = (0, s) := by
    intro attack decay sustain release
    have h2 := GetEnvelopeAmplitude_low_other attack decay sustain release s hg hne
    have h1 := GetEnvelopeAmplitude_ret false attack decay sustain release s
    rw [h2, hamp] at h1
    exact Prod.ext h1 h2
  refine ⟨hamp, hcall, ?_⟩
  intro l2 hl2
  have hrun : run s l2 = s := by
    induction l2 with
    | nil => rfl
    | cons j l2 ih =>
      have hj : j.gateHigh = false := hl2 j (List.mem_cons_self _ _)
      have hs : step s j = s := by
        unfold step
        rw [hj, hcall]
      show run (step s j) l2 = s
      rw [hs]
      exact ih (fun k hk => hl2 k (List.mem_cons_of_mem _ hk))
  rw [hrun]
  exact ⟨rfl, hidle, hamp⟩

/-- C6 at a concrete run: a trigger followed by a gate-low call with `release = 1` ends
in Idle. -/
theorem C6_idle_fixed_point_witness :
    (run initState [⟨true, 2, 1, 128, 1⟩, ⟨false, 2, 1, 128, 1⟩]).stage = HEM_EG_NO_STAGE ∧
    ((run initState [⟨true, 2, 1, 128, 1⟩, ⟨false, 2, 1, 128, 1⟩]).amplitude = 0 ∧
    (∀ attack decay sustain release : Int,
      GetEnvelopeAmplitude false attack decay sustain release
          (run initState [⟨true, 2, 1, 128, 1⟩, ⟨false, 2, 1, 128, 1⟩]) =
        (0, run initState [⟨true, 2, 1, 128, 1⟩, ⟨false, 2, 1, 128, 1⟩])) ∧
    (∀ l2 : List EGInput, (∀ j ∈ l2, j.gateHigh = false) →
      run (run initState [⟨true, 2, 1, 128, 1⟩, ⟨false, 2, 1, 128, 1⟩]) l2 =
        run initState [⟨true, 2, 1, 128, 1⟩, ⟨false, 2, 1, 128, 1⟩] ∧
      (run (run initState [⟨true, 2, 1, 128, 1⟩, ⟨false, 2, 1, 128, 1⟩]) l2).stage
        = HEM_EG_NO_STAGE ∧
      (run (run initState [⟨true, 2, 1, 128, 1⟩, ⟨false, 2, 1, 128, 1⟩]) l2).amplitude = 0)) :=
  ⟨by decide,
    C6_idle_fixed_point [⟨true, 2, 1, 128, 1⟩, ⟨false, 2, 1, 128, 1⟩] (by decide)⟩

/-- C10 (counterexample): from the initial state, a gate-high call with `attack = 2`
leaves the stage at Attack; the following gate-low call with `release = 128` changes the
stage to Release and leaves `stage_ticks = 1`, not 0. -/
theorem C10_counterexample :
    (⟨true, 2, 1, 128, 128⟩ : EGInput).inRange ∧
    (step initState ⟨true, 2, 1, 128, 128⟩).stage = HEM_EG_ATTACK ∧
    (step (step initState ⟨true, 2, 1, 128, 128⟩) ⟨false, 2, 1, 128, 128⟩).stage
      = HEM_EG_RELEASE ∧
    (step (step initState ⟨true, 2, 1, 128, 128⟩) ⟨false, 2, 1, 128, 128⟩).stage_ticks = 1 ∧
    ¬ ((step (step initState ⟨true, 2, 1, 128, 128⟩) ⟨false, 2, 1, 128, 128⟩).stage ≠
          (step initState ⟨true, 2, 1, 128, 128⟩).stage →
        (step (step initState ⟨true, 2, 1, 128, 128⟩) ⟨false, 2, 1, 128, 128⟩).stage_ticks
          = 0) := by
  decide

/-- C10 (amended): for every state reached from the initial state by any sequence of
calls, and every further call (any gate, any parameters, so in particular parameters in
`[1, 255]`), if the call leaves the stage different from its value before the call then
afterwards `stage_ticks` is 0, except when the new stage is Release (entered on a
falling edge, whose first release tick is counted in the same call), where it is 1. -/
theorem C10_stage_ticks_after_transition (l : List EGInput) (i : EGInput)
    (hchg : (step (run initState l) i).stage ≠ (run initState l).stage) :
    ((step (run initState l) i).stage = HEM_EG_RELEASE ∧
      (step (run initState l) i).stage_ticks = 1) ∨
    ((step (run initState l) i).stage ≠ HEM_EG_RELEASE ∧
      (step (run initState l) i).stage_ticks = 0) := by
  have hinv := run_stageInv l initState initState_stageInv
  generalize run initState l = s at hchg hinv
  obtain ⟨g, attack, decay, sustain, release⟩ := i
  unfold step at hchg ⊢
  dsimp only at hchg ⊢
  have hRN : HEM_EG_NO_STAGE ≠ HEM_EG_RELEASE := by decide
  have hRA : HEM_EG_ATTACK ≠ HEM_EG_RELEASE := by decide
  have hRD : HEM_EG_DECAY ≠ HEM_EG_RELEASE := by decide
  have hRS : HEM_EG_SUSTAIN ≠ HEM_EG_RELEASE := by decide
  cases g <;> cases hg : s.gated
  · by_cases hst : s.stage = HEM_EG_RELEASE
    · rw [GetEnvelopeAmplitude_low_release _ _ _ _ _ hg hst] at hchg ⊢
      rcases ReleaseAmplitude_cases release { s with stage_ticks := wrap32 (s.stage_ticks + 1) }
        with ⟨a, ha⟩ | ha
      · rw [ha] at hchg
        exact absurd rfl hchg
      · right; rw [ha]; exact ⟨hRN, rfl⟩
    · rw [GetEnvelopeAmplitude_low_other _ _ _ _ _ hg hst] at hchg
      exact absurd rfl hchg
  · rw [GetEnvelopeAmplitude_falling _ _ _ _ _ hg]
    rcases ReleaseAmplitude_cases release
        { s with stage := HEM_EG_RELEASE, stage_ticks := wrap32 (0 + 1) } with ⟨a, ha⟩ | ha
    · left; rw [ha]; exact ⟨rfl, wrap32_one⟩
    · right; rw [ha]; exact ⟨hRN, rfl⟩
  · rw [GetEnvelopeAmplitude_rising _ _ _ _ _ hg]
    right
    rcases AttackAmplitude_cases attack
        { stage := HEM_EG_ATTACK, stage_ticks := 0,
          amplitude := if s.stage ≠ HEM_EG_RELEASE then 0 else s.amplitude,
          gated := s.gated } with ⟨a, ha⟩ | ha
    · rw [ha]; exact ⟨hRA, rfl⟩
    · rw [ha]; exact ⟨hRD, rfl⟩
  · rw [GetEnvelopeAmplitude_held _ _ _ _ _ hg] at hchg ⊢
    rcases held_shape attack decay sustain
        { s with stage_ticks := wrap32 (s.stage_ticks + 1) } (hinv.1 hg) with hk | hk
    · exact absurd hk.1 hchg
    · right
      refine ⟨?_, hk.2⟩
      rcases hk.1 with hk1 | hk1
      · show (sustainIf sustain (decayIf decay sustain (attackIf attack
          { s with stage_ticks := wrap32 (s.stage_ticks + 1) }))).stage ≠ HEM_EG_RELEASE
        rw [hk1]; exact hRD
      · show (sustainIf sustain (decayIf decay sustain (attackIf attack
          { s with stage_ticks := wrap32 (s.stage_ticks + 1) }))).stage ≠ HEM_EG_RELEASE
        rw [hk1]; exact hRS

/-- C10 (amended) at a concrete run: the falling edge after one Attack tick. -/
theorem C10_stage_ticks_after_transition_witness :
    (step (run initState [⟨true, 2, 1, 128, 128⟩]) ⟨false, 2, 1, 128, 128⟩).stage ≠
      (run initState [⟨true, 2, 1, 128, 128⟩]).stage ∧
    (((step (run initState [⟨true, 2, 1, 128, 128⟩]) ⟨false, 2, 1, 128, 128⟩).stage
          = HEM_EG_RELEASE ∧
        (step (run initState [⟨true, 2, 1, 128, 128⟩]) ⟨false, 2, 1, 128, 128⟩).stage_ticks
          = 1) ∨
      ((step (run initState [⟨true, 2, 1, 128, 128⟩]) ⟨false, 2, 1, 128, 128⟩).stage
          ≠ HEM_EG_RELEASE ∧
        (step (run initState [⟨true, 2, 1, 128, 128⟩]) ⟨false, 2, 1, 128, 128⟩).stage_ticks
          = 0)) :=
  ⟨by decide,
    C10_stage_ticks_after_transition [⟨true, 2, 1, 128, 128⟩] ⟨false, 2, 1, 128, 128⟩
      (by decide)⟩

/-! ### Falling edge -/

theorem Proportion_zero (m : Int) : Proportion 0 HEM_EG_MAX_VALUE m = 0 := by
  unfold Proportion sdiv int2simfloat simfloat2int wrap32 HEM_EG_MAX_VALUE
  simp

/-- Whatever its arguments, `Proportion` returns a value of at most 18 bits. -/
theorem Proportion_range (n d m : Int) :
    -131072 ≤ Proportion n d m ∧ Proportion n d m ≤ 131071 := by
  unfold Proportion simfloat2int
  have h := wrap32_bounds (sdiv (int2simfloat n) d * m)
  dsimp only
  omega

theorem effective_release_eq (release : Int) :
    wrap32 (constrain release 1 HEM_EG_MAX_VALUE - 1) = constrain release 1 HEM_EG_MAX_VALUE - 1 := by
  have hc := constrain_bounds release
  exact wrap32_of_isInt32 (by omega) (by omega)

/-- The state left by a gate-low call made with the latch set, for any stage. -/
theorem falling_state (attack decay sustain release : Int) (s : EGState)
    (hg : s.gated = true) (h1 : -2147483648 ≤ s.amplitude) (h2 : s.amplitude ≤ 2147483647) :
    (GetEnvelopeAmplitude false attack decay sustain release s).2 =
      if 0 < s.amplitude ∧
          1 < Proportion (constrain release 1 HEM_EG_MAX_VALUE - 1) HEM_EG_MAX_VALUE
            HEM_EG_MAX_TICKS_R then
        { stage := HEM_EG_RELEASE, stage_ticks := 1,
          amplitude := s.amplitude - Int.tdiv s.amplitude
            (Proportion (constrain release 1 HEM_EG_MAX_VALUE - 1) HEM_EG_MAX_VALUE
              HEM_EG_MAX_TICKS_R - 1),
          gated := false }
      else
        { stage := HEM_EG_NO_STAGE, stage_ticks := 0, amplitude := 0, gated := false } := by
  rw [GetEnvelopeAmplitude_falling _ _ _ _ _ hg, ReleaseAmplitude_eq]
  dsimp only
  unfold releaseTicksRemaining
  rw [effective_release_eq, wrap32_one]
  have hr := Proportion_range (constrain release 1 HEM_EG_MAX_VALUE - 1) HEM_EG_MAX_VALUE
    HEM_EG_MAX_TICKS_R
  by_cases he : constrain release 1 HEM_EG_MAX_VALUE - 1 = 0
  · rw [he, Proportion_zero]
    simp
  · rw [if_neg he]
    generalize Proportion (constrain release 1 HEM_EG_MAX_VALUE - 1) HEM_EG_MAX_VALUE
      HEM_EG_MAX_TICKS_R = T at hr
    rw [wrap32_of_isInt32 (x := T - 1) (by omega) (by omega)]
    by_cases hc : 0 < s.amplitude ∧ 1 < T
    · rw [if_pos hc, if_neg (by omega)]
      have hq := tdiv_bounds_nonneg (x := s.amplitude) (d := T - 1) (by omega) (by omega)
      simp only [sdiv]
      generalize Int.tdiv s.amplitude (T - 1) = q at hq
      rw [wrap32_of_isInt32 (x := q) (by omega) (by omega)]
      rw [wrap32_of_isInt32 (by omega) (by omega)]
    · rw [if_neg hc, if_pos (by omega)]

/-- C9: gate drop while ramping. For a state with the latch set (whatever its stage, so
in particular Attack or Decay) and 32-bit amplitude `a`, a gate-low call runs no Attack
or Decay update and releases from `a`: with `T_R = Proportion(clamp(release,1,255) - 1, 255, 133333)`, if `a > 0` and
`T_R > 1` the result is stage Release, `stage_ticks = 1`, latch clear and amplitude
`a - a / (T_R - 1)` (truncating); otherwise it is Idle with `stage_ticks = 0` and
amplitude 0. The call returns the resulting amplitude shifted right by 14. -/
theorem C9_gate_drop (attack decay sustain release : Int) (s : EGState)
    (hg : s.gated = true) (ha : isInt32 s.amplitude) :
    ((0 < s.amplitude ∧
        1 < Proportion (constrain release 1 HEM_EG_MAX_VALUE - 1) HEM_EG_MAX_VALUE
          HEM_EG_MAX_TICKS_R) →
      GetEnvelopeAmplitude false attack decay sustain release s =
        (simfloat2int (s.amplitude - Int.tdiv s.amplitude
            (Proportion (constrain release 1 HEM_EG_MAX_VALUE - 1) HEM_EG_MAX_VALUE
              HEM_EG_MAX_TICKS_R - 1)),
         { stage := HEM_EG_RELEASE, stage_ticks := 1,
           amplitude := s.amplitude - Int.tdiv s.amplitude
             (Proportion (constrain release 1 HEM_EG_MAX_VALUE - 1) HEM_EG_MAX_VALUE
               HEM_EG_MAX_TICKS_R - 1),
           gated := false })) ∧
    (¬ (0 < s.amplitude ∧
        1 < Proportion (constrain release 1 HEM_EG_MAX_VALUE - 1) HEM_EG_MAX_VALUE
          HEM_EG_MAX_TICKS_R) →
      GetEnvelopeAmplitude false attack decay sustain release s =
        (0, { stage := HEM_EG_NO_STAGE, stage_ticks := 0, amplitude := 0, gated := false })) := by
  have hf := falling_state attack decay sustain release s hg ha.1 ha.2
  have hret := GetEnvelopeAmplitude_ret false attack decay sustain release s
  constructor
  · intro hc
    rw [if_pos hc] at hf
    rw [hf] at hret
    exact Prod.ext hret hf
  · intro hc
    rw [if_neg hc] at hf
    rw [hf] at hret
    exact Prod.ext hret hf

/-- C9 at a concrete state: the gate drops in Attack at amplitude 1000000 with
`release = 128`. -/
theorem C9_gate_drop_witness :
    (⟨HEM_EG_ATTACK, 5, 1000000, true⟩ : EGState).gated = true ∧
    isInt32 (⟨HEM_EG_ATTACK, 5, 1000000, true⟩ : EGState).amplitude ∧
    (((0 < (⟨HEM_EG_ATTACK, 5, 1000000, true⟩ : EGState).amplitude ∧
        1 < Proportion (constrain 128 1 HEM_EG_MAX_VALUE - 1) HEM_EG_MAX_VALUE
          HEM_EG_MAX_TICKS_R) →
      GetEnvelopeAmplitude false 2 1 128 128 ⟨HEM_EG_ATTACK, 5, 1000000, true⟩ =
        (simfloat2int ((⟨HEM_EG_ATTACK, 5, 1000000, true⟩ : EGState).amplitude -
            Int.tdiv (⟨HEM_EG_ATTACK, 5, 1000000, true⟩ : EGState).amplitude
              (Proportion (constrain 128 1 HEM_EG_MAX_VALUE - 1) HEM_EG_MAX_VALUE
                HEM_EG_MAX_TICKS_R - 1)),
         { stage := HEM_EG_RELEASE, stage_ticks := 1,
           amplitude := (⟨HEM_EG_ATTACK, 5, 1000000, true⟩ : EGState).amplitude -
             Int.tdiv (⟨HEM_EG_ATTACK, 5, 1000000, true⟩ : EGState).amplitude
               (Proportion (constrain 128 1 HEM_EG_MAX_VALUE - 1) HEM_EG_MAX_VALUE
                 HEM_EG_MAX_TICKS_R - 1),
           gated := false })) ∧
    (¬ (0 < (⟨HEM_EG_ATTACK, 5, 1000000, true⟩ : EGState).amplitude ∧
        1 < Proportion (constrain 128 1 HEM_EG_MAX_VALUE - 1) HEM_EG_MAX_VALUE
          HEM_EG_MAX_TICKS_R) →
      GetEnvelopeAmplitude false 2 1 128 128 ⟨HEM_EG_ATTACK, 5, 1000000, true⟩ =
        (0, { stage := HEM_EG_NO_STAGE, stage_ticks := 0, amplitude := 0,
              gated := false }))) :=
  ⟨rfl, by decide,
    C9_gate_drop 2 1 128 128 ⟨HEM_EG_ATTACK, 5, 1000000, true⟩ rfl (by decide)⟩

/-! ### Divisions -/

theorem ite_some_some {α : Type} (c : Prop) [Decidable c] (a b : α) :
    (if c then some a else some b) = some (if c then a else b) := by
  split <;> rfl

theorem sdivChk_pos (ok : Int → Bool) (hok : ∀ b : Int, 0 < b → ok b = true)
    (a b : Int) (hb : ¬ b ≤ 0) : sdivChk ok a b = some (sdiv a b) := by
  unfold sdivChk
  rw [if_pos (hok b (not_le.mp hb))]

theorem ProportionChk_eq (ok : Int → Bool) (hok : ∀ b : Int, 0 < b → ok b = true)
    (n m : Int) :
    ProportionChk ok n HEM_EG_MAX_VALUE m = some (Proportion n HEM_EG_MAX_VALUE m) := by
  have h255 : ¬ HEM_EG_MAX_VALUE ≤ 0 := by decide
  simp only [ProportionChk, Proportion, sdivChk_pos ok hok _ _ h255, Option.bind_eq_bind,
    Option.some_bind, Option.pure_def]

theorem AttackAmplitudeChk_eq (ok : Int → Bool) (hok : ∀ b : Int, 0 < b → ok b = true)
    (attack : Int) (s : EGState) :
    AttackAmplitudeChk ok attack s = some (AttackAmplitude attack s) := by
  unfold AttackAmplitudeChk AttackAmplitude
  simp only [ProportionChk_eq ok hok, Option.bind_eq_bind, Option.some_bind, Option.pure_def]
  generalize (if constrain attack 1 HEM_EG_MAX_VALUE = 1 then (0 : Int) else _) = tr
  by_cases hr : tr ≤ 0
  · simp only [hr, if_true]
  · simp only [hr, if_false, sdivChk_pos ok hok _ _ hr, Option.some_bind]

theorem DecayAmplitudeChk_eq (ok : Int → Bool) (hok : ∀ b : Int, 0 < b → ok b = true)
    (decay sustain : Int) (s : EGState) :
    DecayAmplitudeChk ok decay sustain s = some (DecayAmplitude decay sustain s) := by
  unfold DecayAmplitudeChk DecayAmplitude
  simp only [ProportionChk_eq ok hok, Option.bind_eq_bind, Option.some_bind, Option.pure_def]
  generalize (if sustain = 1 then (0 : Int) else _) = tr
  by_cases hr : tr ≤ 0
  · simp only [hr, if_true]
  · simp only [hr, if_false, sdivChk_pos ok hok _ _ hr, Option.some_bind]

theorem SustainAmplitudeChk_eq (ok : Int → Bool) (hok : ∀ b : Int, 0 < b → ok b = true)
    (sustain : Int) (s : EGState) :
    SustainAmplitudeChk ok sustain s = some (SustainAmplitude sustain s) := by
  unfold SustainAmplitudeChk SustainAmplitude
  simp only [ProportionChk_eq ok hok, Option.bind_eq_bind, Option.some_bind, Option.pure_def]

theorem ReleaseAmplitudeChk_eq (ok : Int → Bool) (hok : ∀ b : Int, 0 < b → ok b = true)
    (release : Int) (s : EGState) :
    ReleaseAmplitudeChk ok release s = some (ReleaseAmplitude release s) := by
  unfold ReleaseAmplitudeChk ReleaseAmplitude
  simp only [ProportionChk_eq ok hok, Option.bind_eq_bind, Option.some_bind, Option.pure_def]
  generalize (if wrap32 (constrain release 1 HEM_EG_MAX_VALUE - 1) = 0 then (0 : Int) else _) = tr
  by_cases hr : tr ≤ 0 ∨ s.amplitude ≤ 0
  · simp only [hr, if_true]
  · simp only [hr, if_false, sdivChk_pos ok hok _ _ (not_or.mp hr).1, Option.some_bind]

theorem GetEnvelopeAmplitudeChk_eq (ok : Int → Bool) (hok : ∀ b : Int, 0 < b → ok b = true)
    (g : Bool) (attack decay sustain release : Int) (s : EGState) :
    GetEnvelopeAmplitudeChk ok g attack decay sustain release s =
      some (GetEnvelopeAmplitude g attack decay sustain release s) := by
  unfold GetEnvelopeAmplitudeChk GetEnvelopeAmplitude
  cases g <;> cases hg : s.gated <;>
    simp only [AttackAmplitudeChk_eq ok hok, DecayAmplitudeChk_eq ok hok,
      SustainAmplitudeChk_eq ok hok, ReleaseAmplitudeChk_eq ok hok,
      Option.bind_eq_bind, Option.pure_def, ite_some_some, Option.some_bind,
      Bool.false_eq_true, if_false, if_true, Bool.not_false, Bool.not_true] <;>
    split_ifs <;> rfl

/-- C7: no division by zero. For every state, gate value and integer parameters, a call
of `GetEnvelopeAmplitude` in which a division by zero is an error never fails, and this
remains so when every division is required to have a positive divisor: each division
executed in `Proportion`, `AttackAmplitude`, `DecayAmplitude` or `ReleaseAmplitude`
divides by 255 or by a `ticks_remaining` that is greater than 0. The result is the one
computed by `GetEnvelopeAmplitude`. -/
theorem C7_no_division_by_zero (g : Bool) (attack decay sustain release : Int) (s : EGState) :
    GetEnvelopeAmplitudeChk nonzeroDivisor g attack decay sustain release s =
      some (GetEnvelopeAmplitude g attack decay sustain release s) ∧
    GetEnvelopeAmplitudeChk positiveDivisor g attack decay sustain release s =
      some (GetEnvelopeAmplitude g attack decay sustain release s) := by
  constructor
  · apply GetEnvelopeAmplitudeChk_eq
    intro b hb
    unfold nonzeroDivisor
    simp only [decide_eq_true_eq]
    omega
  · apply GetEnvelopeAmplitudeChk_eq
    intro b hb
    unfold positiveDivisor
    simp only [decide_eq_true_eq]
    exact hb

/-! ### A gate held high from the initial state -/

theorem run_replicate_succ (s : EGState) (i : EGInput) (n : Nat) :
    run s (List.replicate (n + 1) i) = step (run s (List.replicate n i)) i := by
  rw [List.replicate_succ', run_append_single]

theorem attackIf_decay (attack k a : Int) (g : Bool) :
    attackIf attack ⟨HEM_EG_DECAY, k, a, g⟩ = ⟨HEM_EG_DECAY, k, a, g⟩ := by
  unfold attackIf
  exact if_neg (show ¬ HEM_EG_DECAY = HEM_EG_ATTACK by decide)

theorem attackIf_sustain (attack k a : Int) (g : Bool) :
    attackIf attack ⟨HEM_EG_SUSTAIN, k, a, g⟩ = ⟨HEM_EG_SUSTAIN, k, a, g⟩ := by
  unfold attackIf
  exact if_neg (show ¬ HEM_EG_SUSTAIN = HEM_EG_ATTACK by decide)

theorem decayIf_attack (decay sustain k a : Int) (g : Bool) :
    decayIf decay sustain ⟨HEM_EG_ATTACK, k, a, g⟩ = ⟨HEM_EG_ATTACK, k, a, g⟩ := by
  unfold decayIf
  exact if_neg (show ¬ HEM_EG_ATTACK = HEM_EG_DECAY by decide)

theorem decayIf_sustain (decay sustain k a : Int) (g : Bool) :
    decayIf decay sustain ⟨HEM_EG_SUSTAIN, k, a, g⟩ = ⟨HEM_EG_SUSTAIN, k, a, g⟩ := by
  unfold decayIf
  exact if_neg (show ¬ HEM_EG_SUSTAIN = HEM_EG_DECAY by decide)

theorem sustainIf_attack (sustain k a : Int) (g : Bool) :
    sustainIf sustain ⟨HEM_EG_ATTACK, k, a, g⟩ = ⟨HEM_EG_ATTACK, k, a, g⟩ := by
  unfold sustainIf
  exact if_neg (show ¬ HEM_EG_ATTACK = HEM_EG_SUSTAIN by decide)

theorem sustainIf_decay (sustain k a : Int) (g : Bool) :
    sustainIf sustain ⟨HEM_EG_DECAY, k, a, g⟩ = ⟨HEM_EG_DECAY, k, a, g⟩ := by
  unfold sustainIf
  exact if_neg (show ¬ HEM_EG_DECAY = HEM_EG_SUSTAIN by decide)

theorem sustainIf_sustain (sustain k a : Int) (g : Bool) :
    sustainIf sustain ⟨HEM_EG_SUSTAIN, k, a, g⟩ =
      ⟨HEM_EG_SUSTAIN, k,
        int2simfloat (Proportion (wrap32 (sustain - 1)) HEM_EG_MAX_VALUE HEMISPHERE_MAX_CV),
        g⟩ := by
  unfold sustainIf
  exact if_pos rfl

/-- A sustained-gate call in Attack before the attack duration is used up. -/
theorem held_attack_stay (attack decay sustain release k a : Int) (ha : 2 ≤ attack)
    (hk0 : 0 ≤ k)
    (hk : k + 1 < Proportion (constrain attack 1 HEM_EG_MAX_VALUE) HEM_EG_MAX_VALUE
      HEM_EG_MAX_TICKS_AD) :
    (GetEnvelopeAmplitude true attack decay sustain release ⟨HEM_EG_ATTACK, k, a, true⟩).2 =
      ⟨HEM_EG_ATTACK, k + 1,
        wrap32 (a + sdiv (wrap32 (125829120 - a))
          (Proportion (constrain attack 1 HEM_EG_MAX_VALUE) HEM_EG_MAX_VALUE
            HEM_EG_MAX_TICKS_AD - (k + 1))), true⟩ := by
  have hc := constrain_bounds attack
  have hT := Proportion_AD_bounds hc.1 hc.2
  have hw : wrap32 (k + 1) = k + 1 := wrap32_of_isInt32 (by omega) (by omega)
  have htr := attackTicksRemaining_eq attack (k + 1) ha (by omega) (by omega)
  rw [GetEnvelopeAmplitude_held _ _ _ _ _ rfl]
  dsimp only
  rw [hw]
  have h1 : attackIf attack ⟨HEM_EG_ATTACK, k + 1, a, true⟩ =
      ⟨HEM_EG_ATTACK, k + 1,
        wrap32 (a + sdiv (wrap32 (125829120 - a))
          (Proportion (constrain attack 1 HEM_EG_MAX_VALUE) HEM_EG_MAX_VALUE
            HEM_EG_MAX_TICKS_AD - (k + 1))), true⟩ := by
    unfold attackIf
    rw [if_pos rfl, AttackAmplitude_eq]
    dsimp only
    rw [htr, if_neg (by omega)]
  rw [h1, decayIf_attack, sustainIf_attack]

/-- The Attack update of a sustained-gate call once the attack duration is used up. -/
theorem attackIf_end (attack k a : Int) (ha : 2 ≤ attack)
    (hk : k + 1 = Proportion (constrain attack 1 HEM_EG_MAX_VALUE) HEM_EG_MAX_VALUE
      HEM_EG_MAX_TICKS_AD) :
    attackIf attack ⟨HEM_EG_ATTACK, wrap32 (k + 1), a, true⟩ =
      ⟨HEM_EG_DECAY, 0, int2simfloat HEMISPHERE_MAX_CV, true⟩ := by
  have hc := constrain_bounds attack
  have hT := Proportion_AD_bounds hc.1 hc.2
  have hw : wrap32 (k + 1) = k + 1 := wrap32_of_isInt32 (by omega) (by omega)
  have htr := attackTicksRemaining_eq attack (k + 1) ha (by omega) (by omega)
  unfold attackIf
  rw [if_pos rfl, AttackAmplitude_eq, hw]
  dsimp only
  rw [htr, if_pos (by omega), full_scale]

theorem decayTicksRemaining_eq (decay sustain stage_ticks : Int) (hs : sustain ≠ 1)
    (hd1 : 1 ≤ decay) (hd2 : decay ≤ 255)
    (h0 : 0 ≤ stage_ticks) (h1 : stage_ticks ≤ 2147483647) :
    decayTicksRemaining decay sustain stage_ticks =
      Proportion decay HEM_EG_MAX_VALUE HEM_EG_MAX_TICKS_AD - stage_ticks := by
  have hT := Proportion_AD_bounds hd1 hd2
  unfold decayTicksRemaining
  rw [if_neg hs]
  exact wrap32_of_isInt32 (by omega) (by omega)

/-- The call that ends the attack, when `sustain = 1`: Attack, Decay and Sustain updates
all run, and the call ends in Sustain at amplitude 0. -/
theorem held_attack_end_min_sustain (attack decay release k a : Int) (ha : 2 ≤ attack)
    (hk : k + 1 = Proportion (constrain attack 1 HEM_EG_MAX_VALUE) HEM_EG_MAX_VALUE
      HEM_EG_MAX_TICKS_AD) :
    (GetEnvelopeAmplitude true attack decay 1 release ⟨HEM_EG_ATTACK, k, a, true⟩).2 =
      ⟨HEM_EG_SUSTAIN, 0, 0, true⟩ := by
  rw [GetEnvelopeAmplitude_held _ _ _ _ _ rfl]
  dsimp only
  rw [attackIf_end attack k a ha hk]
  have h2 : decayIf decay 1 ⟨HEM_EG_DECAY, 0, int2simfloat HEMISPHERE_MAX_CV, true⟩ =
      ⟨HEM_EG_SUSTAIN, 0, int2simfloat (Proportion 1 HEM_EG_MAX_VALUE HEMISPHERE_MAX_CV),
        true⟩ := by
    unfold decayIf
    rw [if_pos rfl, DecayAmplitude_eq]
    unfold decayTicksRemaining
    rw [if_pos rfl, if_pos (le_refl _)]
  rw [h2, sustainIf_sustain]
  have h : int2simfloat (Proportion (wrap32 (1 - 1)) HEM_EG_MAX_VALUE HEMISPHERE_MAX_CV) = 0 := by
    decide
  rw [h]

/-- The call that ends the attack, when `sustain ≠ 1`: the Attack update sets full scale
and Decay, and the Decay update of the same call takes its first step. -/
theorem held_attack_end (attack decay sustain release k a : Int) (ha : 2 ≤ attack)
    (hs : sustain ≠ 1) (hd1 : 1 ≤ decay) (hd2 : decay ≤ 255)
    (hk : k + 1 = Proportion (constrain attack 1 HEM_EG_MAX_VALUE) HEM_EG_MAX_VALUE
      HEM_EG_MAX_TICKS_AD) :
    (GetEnvelopeAmplitude true attack decay sustain release ⟨HEM_EG_ATTACK, k, a, true⟩).2 =
      ⟨HEM_EG_DECAY, 0,
        wrap32 (125829120 - sdiv (wrap32 (125829120 -
            int2simfloat (Proportion sustain HEM_EG_MAX_VALUE HEMISPHERE_MAX_CV)))
          (Proportion decay HEM_EG_MAX_VALUE HEM_EG_MAX_TICKS_AD)), true⟩ := by
  have hT := Proportion_AD_bounds hd1 hd2
  have htr := decayTicksRemaining_eq decay sustain (0) hs hd1 hd2 (le_refl _) (by omega)
  rw [sub_zero] at htr
  rw [GetEnvelopeAmplitude_held _ _ _ _ _ rfl]
  dsimp only
  rw [attackIf_end attack k a ha hk, full_scale]
  have h2 : decayIf decay sustain ⟨HEM_EG_DECAY, 0, 125829120, true⟩ =
      ⟨HEM_EG_DECAY, 0,
        wrap32 (125829120 - sdiv (wrap32 (125829120 -
            int2simfloat (Proportion sustain HEM_EG_MAX_VALUE HEMISPHERE_MAX_CV)))
          (Proportion decay HEM_EG_MAX_VALUE HEM_EG_MAX_TICKS_AD)), true⟩ := by
    unfold decayIf
    rw [if_pos rfl, DecayAmplitude_eq]
    dsimp only
    rw [htr, if_neg (by omega)]
  rw [h2, sustainIf_decay]

/-- A sustained-gate call in Decay before the decay duration is used up. -/
theorem held_decay_stay (attack decay sustain release j a : Int) (hs : sustain ≠ 1)
    (hd1 : 1 ≤ decay) (hd2 : decay ≤ 255) (hj0 : 0 ≤ j)
    (hj : j + 1 < Proportion decay HEM_EG_MAX_VALUE HEM_EG_MAX_TICKS_AD) :
    (GetEnvelopeAmplitude true attack decay sustain release ⟨HEM_EG_DECAY, j, a, true⟩).2 =
      ⟨HEM_EG_DECAY, j + 1,
        wrap32 (a - sdiv (wrap32 (a -
            int2simfloat (Proportion sustain HEM_EG_MAX_VALUE HEMISPHERE_MAX_CV)))
          (Proportion decay HEM_EG_MAX_VALUE HEM_EG_MAX_TICKS_AD - (j + 1))), true⟩ := by
  have hT := Proportion_AD_bounds hd1 hd2
  have hw : wrap32 (j + 1) = j + 1 := wrap32_of_isInt32 (by omega) (by omega)
  have htr := decayTicksRemaining_eq decay sustain (j + 1) hs hd1 hd2 (by omega) (by omega)
  rw [GetEnvelopeAmplitude_held _ _ _ _ _ rfl]
  dsimp only
  rw [hw, attackIf_decay]
  have h2 : decayIf decay sustain ⟨HEM_EG_DECAY, j + 1, a, true⟩ =
      ⟨HEM_EG_DECAY, j + 1,
        wrap32 (a - sdiv (wrap32 (a -
            int2simfloat (Proportion sustain HEM_EG_MAX_VALUE HEMISPHERE_MAX_CV)))
          (Proportion decay HEM_EG_MAX_VALUE HEM_EG_MAX_TICKS_AD - (j + 1))), true⟩ := by
    unfold decayIf
    rw [if_pos rfl, DecayAmplitude_eq]
    dsimp only
    rw [htr, if_neg (by omega)]
  rw [h2, sustainIf_decay]

/-- The call that ends the decay: the Decay update enters Sustain and the Sustain update
of the same call sets the amplitude from `sustain - 1`. -/
theorem held_decay_end (attack decay sustain release j a : Int) (hs : sustain ≠ 1)
    (hd1 : 1 ≤ decay) (hd2 : decay ≤ 255)
    (hj : j + 1 = Proportion decay HEM_EG_MAX_VALUE HEM_EG_MAX_TICKS_AD) :
    (GetEnvelopeAmplitude true attack decay sustain release ⟨HEM_EG_DECAY, j, a, true⟩).2 =
      ⟨HEM_EG_SUSTAIN, 0,
        int2simfloat (Proportion (wrap32 (sustain - 1)) HEM_EG_MAX_VALUE HEMISPHERE_MAX_CV),
        true⟩ := by
  have hT := Proportion_AD_bounds hd1 hd2
  have hw : wrap32 (j + 1) = j + 1 := wrap32_of_isInt32 (by omega) (by omega)
  have htr := decayTicksRemaining_eq decay sustain (j + 1) hs hd1 hd2 (by omega) (by omega)
  rw [GetEnvelopeAmplitude_held _ _ _ _ _ rfl]
  dsimp only
  rw [hw, attackIf_decay]
  have h2 : decayIf decay sustain ⟨HEM_EG_DECAY, j + 1, a, true⟩ =
      ⟨HEM_EG_SUSTAIN, 0,
        int2simfloat (Proportion sustain HEM_EG_MAX_VALUE HEMISPHERE_MAX_CV), true⟩ := by
    unfold decayIf
    rw [if_pos rfl, DecayAmplitude_eq]
    dsimp only
    rw [htr, if_pos (by omega)]
  rw [h2, sustainIf_sustain]

/-- A sustained-gate call in Sustain stays in Sustain. -/
theorem held_sustain (attack decay sustain release j a : Int) :
    (GetEnvelopeAmplitude true attack decay sustain release ⟨HEM_EG_SUSTAIN, j, a, true⟩).2 =
      ⟨HEM_EG_SUSTAIN, wrap32 (j + 1),
        int2simfloat (Proportion (wrap32 (sustain - 1)) HEM_EG_MAX_VALUE HEMISPHERE_MAX_CV),
        true⟩ := by
  rw [GetEnvelopeAmplitude_held _ _ _ _ _ rfl]
  dsimp only
  rw [attackIf_sustain, decayIf_sustain, sustainIf_sustain]

/-- While the attack lasts, the state after `k + 1` gate-high calls from the initial state
is Attack with `stage_ticks = k`. -/
theorem attack_phase (attack decay sustain release : Int) (ha : 2 ≤ attack) (k : Nat)
    (hk : (k : Int) < Proportion (constrain attack 1 HEM_EG_MAX_VALUE) HEM_EG_MAX_VALUE
      HEM_EG_MAX_TICKS_AD) :
    ∃ a, run initState (List.replicate (k + 1) ⟨true, attack, decay, sustain, release⟩) =
      ⟨HEM_EG_ATTACK, k, a, true⟩ := by
  induction k with
  | zero => exact ⟨_, rising_state attack decay sustain release initState rfl ha⟩
  | succ k ih =>
    have hk' : ((k : Int)) + 1 < Proportion (constrain attack 1 HEM_EG_MAX_VALUE)
        HEM_EG_MAX_VALUE HEM_EG_MAX_TICKS_AD := by push_cast at hk; exact hk
    obtain ⟨a, hrun⟩ := ih (by omega)
    have hstep := held_attack_stay attack decay sustain release k a ha (by omega) hk'
    rw [← hrun] at hstep
    rw [run_replicate_succ]
    push_cast
    exact ⟨_, hstep⟩

/-- After the call that ends the attack, when `sustain ≠ 1`. -/
theorem attack_done (attack decay sustain release : Int) (ha : 2 ≤ attack)
    (hs : sustain ≠ 1) (hd1 : 1 ≤ decay) (hd2 : decay ≤ 255) (TA : Nat)
    (hTA : (TA : Int) = Proportion (constrain attack 1 HEM_EG_MAX_VALUE) HEM_EG_MAX_VALUE
      HEM_EG_MAX_TICKS_AD) :
    run initState (List.replicate (TA + 1) ⟨true, attack, decay, sustain, release⟩) =
      ⟨HEM_EG_DECAY, 0,
        wrap32 (125829120 - sdiv (wrap32 (125829120 -
            int2simfloat (Proportion sustain HEM_EG_MAX_VALUE HEMISPHERE_MAX_CV)))
          (Proportion decay HEM_EG_MAX_VALUE HEM_EG_MAX_TICKS_AD)), true⟩ := by
  have hc := constrain_bounds attack
  have hT := Proportion_AD_bounds hc.1 hc.2
  obtain ⟨k, rfl⟩ : ∃ k, TA = k + 1 := ⟨TA - 1, by omega⟩
  obtain ⟨a, hrun⟩ := attack_phase attack decay sustain release ha k (by omega)
  rw [run_replicate_succ, hrun]
  show (GetEnvelopeAmplitude true attack decay sustain release _).2 = _
  rw [held_attack_end attack decay sustain release k a ha hs hd1 hd2 (by push_cast at hTA; omega)]

/-- After the call that ends the attack, when `sustain = 1`. -/
theorem attack_done_min_sustain (attack decay release : Int) (ha : 2 ≤ attack) (TA : Nat)
    (hTA : (TA : Int) = Proportion (constrain attack 1 HEM_EG_MAX_VALUE) HEM_EG_MAX_VALUE
      HEM_EG_MAX_TICKS_AD) :
    run initState (List.replicate (TA + 1) ⟨true, attack, decay, 1, release⟩) =
      ⟨HEM_EG_SUSTAIN, 0, 0, true⟩ := by
  have hc := constrain_bounds attack
  have hT := Proportion_AD_bounds hc.1 hc.2
  obtain ⟨k, rfl⟩ : ∃ k, TA = k + 1 := ⟨TA - 1, by omega⟩
  obtain ⟨a, hrun⟩ := attack_phase attack decay 1 release ha k (by omega)
  rw [run_replicate_succ, hrun]
  show (GetEnvelopeAmplitude true attack decay 1 release _).2 = _
  rw [held_attack_end_min_sustain attack decay release k a ha (by push_cast at hTA; omega)]

/-- While the decay lasts, the state is Decay with `stage_ticks` counting from 0. -/
theorem decay_phase (attack decay sustain release : Int) (ha : 2 ≤ attack)
    (hs : sustain ≠ 1) (hd1 : 1 ≤ decay) (hd2 : decay ≤ 255) (TA : Nat)
    (hTA : (TA : Int) = Proportion (constrain attack 1 HEM_EG_MAX_VALUE) HEM_EG_MAX_VALUE
      HEM_EG_MAX_TICKS_AD)
    (j : Nat) (hj : (j : Int) < Proportion decay HEM_EG_MAX_VALUE HEM_EG_MAX_TICKS_AD) :
    ∃ a, run initState (List.replicate (TA + 1 + j) ⟨true, attack, decay, sustain, release⟩) =
      ⟨HEM_EG_DECAY, j, a, true⟩ := by
  induction j with
  | zero => exact ⟨_, attack_done attack decay sustain release ha hs hd1 hd2 TA hTA⟩
  | succ j ih =>
    have hj' : ((j : Int)) + 1 < Proportion decay HEM_EG_MAX_VALUE HEM_EG_MAX_TICKS_AD := by
      push_cast at hj; exact hj
    obtain ⟨a, hrun⟩ := ih (by omega)
    have hstep := held_decay_stay attack decay sustain release j a hs hd1 hd2 (by omega) hj'
    rw [← hrun] at hstep
    rw [← Nat.add_assoc, run_replicate_succ]
    push_cast
    exact ⟨_, hstep⟩

/-- After the call that ends the decay: Sustain, with the amplitude set from
`sustain - 1`. -/
theorem decay_done (attack decay sustain release : Int) (ha : 2 ≤ attack)
    (hs : sustain ≠ 1) (hd1 : 1 ≤ decay) (hd2 : decay ≤ 255) (TA TD : Nat)
    (hTA : (TA : Int) = Proportion (constrain attack 1 HEM_EG_MAX_VALUE) HEM_EG_MAX_VALUE
      HEM_EG_MAX_TICKS_AD)
    (hTD : (TD : Int) = Proportion decay HEM_EG_MAX_VALUE HEM_EG_MAX_TICKS_AD) :
    run initState (List.replicate (TA + 1 + TD) ⟨true, attack, decay, sustain, release⟩) =
      ⟨HEM_EG_SUSTAIN, 0,
        int2simfloat (Proportion (wrap32 (sustain - 1)) HEM_EG_MAX_VALUE HEMISPHERE_MAX_CV),
        true⟩ := by
  have hT := Proportion_AD_bounds hd1 hd2
  obtain ⟨j, rfl⟩ : ∃ j, TD = j + 1 := ⟨TD - 1, by omega⟩
  obtain ⟨a, hrun⟩ := decay_phase attack decay sustain release ha hs hd1 hd2 TA hTA j (by omega)
  rw [← Nat.add_assoc, run_replicate_succ, hrun]
  show (GetEnvelopeAmplitude true attack decay sustain release _).2 = _
  rw [held_decay_end attack decay sustain release j a hs hd1 hd2 (by push_cast at hTD; omega)]

/-- Once in Sustain with the latch set, gate-high calls stay in Sustain. -/
theorem sustain_phase (attack decay sustain release : Int) (m : Nat) (j a : Int)
    (hm : run initState (List.replicate m ⟨true, attack, decay, sustain, release⟩) =
      ⟨HEM_EG_SUSTAIN, j, a, true⟩) (n : Nat) :
    ∃ j2 a2, run initState (List.replicate (m + n) ⟨true, attack, decay, sustain, release⟩) =
      ⟨HEM_EG_SUSTAIN, j2, a2, true⟩ := by
  induction n with
  | zero => exact ⟨j, a, hm⟩
  | succ n ih =>
    obtain ⟨j2, a2, hrun⟩ := ih
    have hstep := held_sustain attack decay sustain release j2 a2
    rw [← hrun] at hstep
    rw [← Nat.add_assoc, run_replicate_succ]
    exact ⟨_, _, hstep⟩

/-- Stage at the end of each tick while the gate is held high from the initial state,
with `TA` and `TD` the attack and decay durations: Attack for ticks `1 .. TA`; then, when
`sustain ≠ 1`, Decay for ticks `TA + 1 .. TA + TD` and Sustain at tick `TA + TD + 1`;
when `sustain = 1`, Sustain at tick `TA + 1`. -/
theorem gate_high_timeline (attack decay sustain release : Int) (ha : 2 ≤ attack)
    (hd1 : 1 ≤ decay) (hd2 : decay ≤ 255) (TA TD : Nat)
    (hTA : (TA : Int) = Proportion (constrain attack 1 HEM_EG_MAX_VALUE) HEM_EG_MAX_VALUE
      HEM_EG_MAX_TICKS_AD)
    (hTD : (TD : Int) = Proportion decay HEM_EG_MAX_VALUE HEM_EG_MAX_TICKS_AD) :
    (∀ k : Nat, 1 ≤ k → k ≤ TA →
      (run initState (List.replicate k ⟨true, attack, decay, sustain, release⟩)).stage
        = HEM_EG_ATTACK) ∧
    (sustain ≠ 1 → ∀ k : Nat, TA + 1 ≤ k → k ≤ TA + TD →
      (run initState (List.replicate k ⟨true, attack, decay, sustain, release⟩)).stage
        = HEM_EG_DECAY) ∧
    (sustain ≠ 1 →
      run initState (List.replicate (TA + TD + 1) ⟨true, attack, decay, sustain, release⟩) =
        ⟨HEM_EG_SUSTAIN, 0,
          int2simfloat (Proportion (wrap32 (sustain - 1)) HEM_EG_MAX_VALUE HEMISPHERE_MAX_CV),
          true⟩) ∧
    (sustain = 1 →
      run initState (List.replicate (TA + 1) ⟨true, attack, decay, sustain, release⟩) =
        ⟨HEM_EG_SUSTAIN, 0, 0, true⟩) := by
  refine ⟨?_, ?_, ?_, ?_⟩
  · intro k hk1 hk2
    obtain ⟨k', rfl⟩ : ∃ k', k = k' + 1 := ⟨k - 1, by omega⟩
    obtain ⟨a, hrun⟩ := attack_phase attack decay sustain release ha k' (by omega)
    rw [hrun]
  · intro hs k hk1 hk2
    obtain ⟨j, rfl⟩ : ∃ j, k = TA + 1 + j := ⟨k - (TA + 1), by omega⟩
    obtain ⟨a, hrun⟩ :=
      decay_phase attack decay sustain release ha hs hd1 hd2 TA hTA j (by omega)
    rw [hrun]
  · intro hs
    have h := decay_done attack decay sustain release ha hs hd1 hd2 TA TD hTA hTD
    have he : TA + TD + 1 = TA + 1 + TD := by omega
    rw [he]
    exact h
  · intro hs
    subst hs
    exact attack_done_min_sustain attack decay release ha TA hTA

theorem initState_run_zero (i : EGInput) :
    (run initState (List.replicate 0 i)).stage = HEM_EG_NO_STAGE := rfl

/-- C4 (counterexample). Gate held high from the initial state with `attack = 2`,
`decay = 1`: with `sustain = 2` the first tick that ends in Sustain is tick 391, and the
amplitude there is 491520 (the level of `sustain - 1`), not the decay target
`int2simfloat(Proportion(2, 255, HEMISPHERE_MAX_CV)) = 983040`; with `sustain = 1` no
tick ever ends in Decay, tick 261 ends in Sustain, and the amplitude there is 0, not the
decay target 491520. -/
theorem C4_counterexample :
    ((∀ k : Nat, k < 391 →
        (run initState (List.replicate k ⟨true, 2, 1, 2, 1⟩)).stage ≠ HEM_EG_SUSTAIN) ∧
      (run initState (List.replicate 391 ⟨true, 2, 1, 2, 1⟩)).stage = HEM_EG_SUSTAIN ∧
      (run initState (List.replicate 391 ⟨true, 2, 1, 2, 1⟩)).amplitude = 491520 ∧
      int2simfloat (Proportion 2 HEM_EG_MAX_VALUE HEMISPHERE_MAX_CV) = 983040) ∧
    ((∀ k : Nat,
        (run initState (List.replicate k ⟨true, 2, 1, 1, 1⟩)).stage ≠ HEM_EG_DECAY) ∧
      (∀ k : Nat, k < 261 →
        (run initState (List.replicate k ⟨true, 2, 1, 1, 1⟩)).stage ≠ HEM_EG_SUSTAIN) ∧
      (run initState (List.replicate 261 ⟨true, 2, 1, 1, 1⟩)).stage = HEM_EG_SUSTAIN ∧
      (run initState (List.replicate 261 ⟨true, 2, 1, 1, 1⟩)).amplitude = 0 ∧
      int2simfloat (Proportion 1 HEM_EG_MAX_VALUE HEMISPHERE_MAX_CV) = 491520) := by
  have hTA : ((260 : Nat) : Int) = Proportion (constrain 2 1 HEM_EG_MAX_VALUE) HEM_EG_MAX_VALUE
      HEM_EG_MAX_TICKS_AD := by decide
  have hTD : ((130 : Nat) : Int) = Proportion 1 HEM_EG_MAX_VALUE HEM_EG_MAX_TICKS_AD := by
    decide
  have hNS : HEM_EG_NO_STAGE ≠ HEM_EG_SUSTAIN := by decide
  have hAS : HEM_EG_ATTACK ≠ HEM_EG_SUSTAIN := by decide
  have hDS : HEM_EG_DECAY ≠ HEM_EG_SUSTAIN := by decide
  have hND : HEM_EG_NO_STAGE ≠ HEM_EG_DECAY := by decide
  have hAD : HEM_EG_ATTACK ≠ HEM_EG_DECAY := by decide
  constructor
  · obtain ⟨h1, h2, h3, -⟩ :=
      gate_high_timeline 2 1 2 1 (by decide) (by decide) (by decide) 260 130 hTA hTD
    have h3' := h3 (by decide)
    refine ⟨?_, ?_, ?_, by decide⟩
    · intro k hk
      rcases Nat.eq_zero_or_pos k with h0 | h0
      · subst h0; exact hNS
      · by_cases hk2 : k ≤ 260
        · rw [h1 k h0 hk2]; exact hAS
        · rw [h2 (by decide) k (by omega) (by omega)]; exact hDS
    · rw [h3']
    · rw [h3']; decide
  · obtain ⟨h1, -, -, h4⟩ :=
      gate_high_timeline 2 1 1 1 (by decide) (by decide) (by decide) 260 130 hTA hTD
    have h4' := h4 rfl
    refine ⟨?_, ?_, ?_, ?_, by decide⟩
    · intro k
      rcases Nat.eq_zero_or_pos k with h0 | h0
      · subst h0; exact hND
      · by_cases hk2 : k ≤ 260
        · rw [h1 k h0 hk2]; exact hAD
        · obtain ⟨n, rfl⟩ : ∃ n, k = 260 + 1 + n := ⟨k - 261, by omega⟩
          obtain ⟨j2, a2, hrun⟩ := sustain_phase 2 1 1 1 (260 + 1) 0 0 h4' n
          rw [hrun]; exact hDS.symm
    · intro k hk
      rcases Nat.eq_zero_or_pos k with h0 | h0
      · subst h0; exact hNS
      · rw [h1 k h0 (by omega)]; exact hAS
    · rw [h4']
    · rw [h4']

/-- C4 (amended). For constant `attack` in `[2,255]`, `decay` and `sustain` in `[1,255]`
and any `release`, with the gate held high on every tick from the initial state, let
`TA = Proportion(attack,255,33333)` and `TD = Proportion(decay,255,33333)`. After
`m = TA + 1 + TD` ticks (`m = TA + 1` when `sustain = 1`) the stage is Sustain for the
first time, with `stage_ticks = 0` and amplitude
`int2simfloat(Proportion(sustain - 1, 255, HEMISPHERE_MAX_CV))`, the level of the Sustain
update that runs in the same call. When `sustain ≠ 1` an earlier tick ends in Decay; when
`sustain = 1` no tick ends in Decay. -/
theorem C4_gate_held_reaches_sustain (attack decay sustain release : Int)
    (ha : 2 ≤ attack ∧ attack ≤ 255) (hd : 1 ≤ decay ∧ decay ≤ 255)
    (hs : 1 ≤ sustain ∧ sustain ≤ 255) :
    ∃ m : Nat,
      m = (Proportion attack HEM_EG_MAX_VALUE HEM_EG_MAX_TICKS_AD).toNat + 1 +
          (if sustain = 1 then 0
            else (Proportion decay HEM_EG_MAX_VALUE HEM_EG_MAX_TICKS_AD).toNat) ∧
      (∀ k : Nat, k < m →
        (run initState (List.replicate k ⟨true, attack, decay, sustain, release⟩)).stage
          ≠ HEM_EG_SUSTAIN) ∧
      run initState (List.replicate m ⟨true, attack, decay, sustain, release⟩) =
        ⟨HEM_EG_SUSTAIN, 0,
          int2simfloat (Proportion (sustain - 1) HEM_EG_MAX_VALUE HEMISPHERE_MAX_CV), true⟩ ∧
      (sustain ≠ 1 → ∃ n : Nat, n < m ∧
        (run initState (List.replicate n ⟨true, attack, decay, sustain, release⟩)).stage
          = HEM_EG_DECAY) ∧
      (sustain = 1 → ∀ k : Nat,
        (run initState (List.replicate k ⟨true, attack, decay, sustain, release⟩)).stage
          ≠ HEM_EG_DECAY) := by
  have hca : constrain attack 1 HEM_EG_MAX_VALUE = attack := constrain_of_inRange (by omega) ha.2
  have hTAb := Proportion_AD_bounds (n := attack) (by omega) ha.2
  have hTDb := Proportion_AD_bounds hd.1 hd.2
  have hTA : (((Proportion attack HEM_EG_MAX_VALUE HEM_EG_MAX_TICKS_AD).toNat : Nat) : Int) =
      Proportion (constrain attack 1 HEM_EG_MAX_VALUE) HEM_EG_MAX_VALUE HEM_EG_MAX_TICKS_AD := by
    rw [hca]; exact Int.toNat_of_nonneg (by omega)
  have hTD : (((Proportion decay HEM_EG_MAX_VALUE HEM_EG_MAX_TICKS_AD).toNat : Nat) : Int) =
      Proportion decay HEM_EG_MAX_VALUE HEM_EG_MAX_TICKS_AD :=
    Int.toNat_of_nonneg (by omega)
  have hw : wrap32 (sustain - 1) = sustain - 1 := wrap32_of_isInt32 (by omega) (by omega)
  have hNS : HEM_EG_NO_STAGE ≠ HEM_EG_SUSTAIN := by decide
  have hAS : HEM_EG_ATTACK ≠ HEM_EG_SUSTAIN := by decide
  have hDS : HEM_EG_DECAY ≠ HEM_EG_SUSTAIN := by decide
  have hND : HEM_EG_NO_STAGE ≠ HEM_EG_DECAY := by decide
  have hAD : HEM_EG_ATTACK ≠ HEM_EG_DECAY := by decide
  obtain ⟨h1, h2, h3, h4⟩ := gate_high_timeline attack decay sustain release ha.1 hd.1 hd.2
    _ _ hTA hTD
  generalize (Proportion attack HEM_EG_MAX_VALUE HEM_EG_MAX_TICKS_AD).toNat = TA at *
  generalize (Proportion decay HEM_EG_MAX_VALUE HEM_EG_MAX_TICKS_AD).toNat = TD at *
  by_cases hs1 : sustain = 1
  · refine ⟨TA + 1, by rw [if_pos hs1], ?_, ?_, fun hne => absurd hs1 hne, ?_⟩
    · intro k hk
      rcases Nat.eq_zero_or_pos k with h0 | h0
      · subst h0; exact hNS
      · rw [h1 k h0 (by omega)]; exact hAS
    · rw [h4 hs1, hs1]; rfl
    · intro _ k
      rcases Nat.eq_zero_or_pos k with h0 | h0
      · subst h0; exact hND
      · by_cases hk2 : k ≤ TA
        · rw [h1 k h0 hk2]; exact hAD
        · obtain ⟨n, rfl⟩ : ∃ n, k = TA + 1 + n := ⟨k - (TA + 1), by omega⟩
          obtain ⟨j2, a2, hrun⟩ :=
            sustain_phase attack decay sustain release (TA + 1) 0 0 (h4 hs1) n
          rw [hrun]; exact hDS.symm
  · refine ⟨TA + 1 + TD, by rw [if_neg hs1], ?_, ?_, fun _ => ⟨TA + 1, ?_, ?_⟩,
      fun h => absurd h hs1⟩
    · intro k hk
      rcases Nat.eq_zero_or_pos k with h0 | h0
      · subst h0; exact hNS
      · by_cases hk2 : k ≤ TA
        · rw [h1 k h0 hk2]; exact hAS
        · rw [h2 hs1 k (by omega) (by omega)]; exact hDS
    · have he : TA + 1 + TD = TA + TD + 1 := by omega
      rw [he, h3 hs1, hw]
    · omega
    · exact h2 hs1 (TA + 1) (le_refl _) (by omega)

/-- C4 (amended) at `attack = 2`, `decay = 1`, `sustain = 2`, `release = 1`. -/
theorem C4_gate_held_reaches_sustain_witness :
    (2 ≤ (2 : Int) ∧ (2 : Int) ≤ 255) ∧ (1 ≤ (1 : Int) ∧ (1 : Int) ≤ 255) ∧
    (1 ≤ (2 : Int) ∧ (2 : Int) ≤ 255) ∧
    ∃ m : Nat,
      m = (Proportion 2 HEM_EG_MAX_VALUE HEM_EG_MAX_TICKS_AD).toNat + 1 +
          (if (2 : Int) = 1 then 0
            else (Proportion 1 HEM_EG_MAX_VALUE HEM_EG_MAX_TICKS_AD).toNat) ∧
      (∀ k : Nat, k < m →
        (run initState (List.replicate k ⟨true, 2, 1, 2, 1⟩)).stage ≠ HEM_EG_SUSTAIN) ∧
      run initState (List.replicate m ⟨true, 2, 1, 2, 1⟩) =
        ⟨HEM_EG_SUSTAIN, 0,
          int2simfloat (Proportion (2 - 1) HEM_EG_MAX_VALUE HEMISPHERE_MAX_CV), true⟩ ∧
      ((2 : Int) ≠ 1 → ∃ n : Nat, n < m ∧
        (run initState (List.replicate n ⟨true, 2, 1, 2, 1⟩)).stage = HEM_EG_DECAY) ∧
      ((2 : Int) = 1 → ∀ k : Nat,
        (run initState (List.replicate k ⟨true, 2, 1, 2, 1⟩)).stage ≠ HEM_EG_DECAY) :=
  ⟨by decide, by decide, by decide,
    C4_gate_held_reaches_sustain 2 1 2 1 (by decide) (by decide) (by decide)⟩

theorem attack_128_duration :
    ((16731 : Nat) : Int) = Proportion (constrain 128 1 HEM_EG_MAX_VALUE) HEM_EG_MAX_VALUE
      HEM_EG_MAX_TICKS_AD := by decide

/-- C8 (counterexample). With `attack = decay = sustain = release = 128` and the gate
held high from the initial state, the stage is still Attack after 16731 calls; call 16732
leaves stage Decay but amplitude 125825375 and returns 7679, not full scale
`int2simfloat(HEMISPHERE_MAX_CV) = 125829120` and `HEMISPHERE_MAX_CV = 7680`. -/
theorem C8_counterexample :
    (run initState (List.replicate 16731 ⟨true, 128, 128, 128, 128⟩)).stage = HEM_EG_ATTACK ∧
    GetEnvelopeAmplitude true 128 128 128 128
        (run initState (List.replicate 16731 ⟨true, 128, 128, 128, 128⟩)) =
      (7679, ⟨HEM_EG_DECAY, 0, 125825375, true⟩) ∧
    (125825375 : Int) ≠ int2simfloat HEMISPHERE_MAX_CV ∧
    (7679 : Int) ≠ HEMISPHERE_MAX_CV := by
  obtain ⟨a, hrun⟩ := attack_phase 128 128 128 128 (by decide) 16730
    (by rw [← attack_128_duration]; decide)
  have hend := held_attack_end 128 128 128 128 (16730 : Nat) a (by decide) (by decide)
    (by decide) (by decide) (by rw [← attack_128_duration]; decide)
  have hval : wrap32 (125829120 - sdiv (wrap32 (125829120 -
      int2simfloat (Proportion 128 HEM_EG_MAX_VALUE HEMISPHERE_MAX_CV)))
      (Proportion 128 HEM_EG_MAX_VALUE HEM_EG_MAX_TICKS_AD)) = 125825375 := by decide
  rw [hval] at hend
  rw [hrun]
  refine ⟨rfl, ?_, by decide, by decide⟩
  have hret := GetEnvelopeAmplitude_ret true 128 128 128 128
    ⟨HEM_EG_ATTACK, (16730 : Nat), a, true⟩
  rw [hend] at hret
  exact Prod.ext hret hend

/-- C8 (amended). With `attack = 128` (attack duration `Proportion(128, 255, 33333)`, 16731
ticks), constant `decay` and `sustain` in `[1,255]`, any `release`, and the gate held
high on every tick from the initial state: the stage is Attack after each of the first
16731 calls. In call 16732 the Attack update sets the stage to Decay and the amplitude to
exactly full scale `int2simfloat(HEMISPHERE_MAX_CV)`, and the updates for Decay (and then
Sustain) run in the same call: when `sustain ≠ 1` the call ends with stage Decay,
`stage_ticks = 0` and amplitude `FULL - (FULL - target) / Proportion(decay, 255, 33333)`
where `target = int2simfloat(Proportion(sustain, 255, HEMISPHERE_MAX_CV))`, and returns
that amplitude shifted right by 14; for `sustain = 255` this is full scale and the call
returns `HEMISPHERE_MAX_CV`; when `sustain = 1` the call ends in Sustain with amplitude 0
and returns 0. -/
theorem C8_attack_128 (decay sustain release : Int)
    (hd : 1 ≤ decay ∧ decay ≤ 255) (hs : 1 ≤ sustain ∧ sustain ≤ 255) :
    Proportion 128 HEM_EG_MAX_VALUE HEM_EG_MAX_TICKS_AD = 16731 ∧
    (∀ k : Nat, 1 ≤ k → k ≤ 16731 →
      (run initState (List.replicate k ⟨true, 128, decay, sustain, release⟩)).stage
        = HEM_EG_ATTACK) ∧
    attackIf 128
        { run initState (List.replicate 16731 ⟨true, 128, decay, sustain, release⟩) with
          stage_ticks := wrap32
            ((run initState (List.replicate 16731
              ⟨true, 128, decay, sustain, release⟩)).stage_ticks + 1) } =
      ⟨HEM_EG_DECAY, 0, int2simfloat HEMISPHERE_MAX_CV, true⟩ ∧
    (sustain ≠ 1 →
      GetEnvelopeAmplitude true 128 decay sustain release
          (run initState (List.replicate 16731 ⟨true, 128, decay, sustain, release⟩)) =
        (simfloat2int (int2simfloat HEMISPHERE_MAX_CV -
            Int.tdiv (int2simfloat HEMISPHERE_MAX_CV -
                int2simfloat (Proportion sustain HEM_EG_MAX_VALUE HEMISPHERE_MAX_CV))
              (Proportion decay HEM_EG_MAX_VALUE HEM_EG_MAX_TICKS_AD)),
         ⟨HEM_EG_DECAY, 0,
           int2simfloat HEMISPHERE_MAX_CV -
             Int.tdiv (int2simfloat HEMISPHERE_MAX_CV -
                 int2simfloat (Proportion sustain HEM_EG_MAX_VALUE HEMISPHERE_MAX_CV))
               (Proportion decay HEM_EG_MAX_VALUE HEM_EG_MAX_TICKS_AD), true⟩)) ∧
    (sustain = 255 →
      GetEnvelopeAmplitude true 128 decay sustain release
          (run initState (List.replicate 16731 ⟨true, 128, decay, sustain, release⟩)) =
        (HEMISPHERE_MAX_CV, ⟨HEM_EG_DECAY, 0, int2simfloat HEMISPHERE_MAX_CV, true⟩)) ∧
    (sustain = 1 →
      GetEnvelopeAmplitude true 128 decay sustain release
          (run initState (List.replicate 16731 ⟨true, 128, decay, sustain, release⟩)) =
        (0, ⟨HEM_EG_SUSTAIN, 0, 0, true⟩)) := by
  have hTD := Proportion_AD_bounds hd.1 hd.2
  have htg := target_bounds (by omega : 0 ≤ sustain) hs.2
  obtain ⟨h1, -, -, -⟩ := gate_high_timeline 128 decay sustain release (by decide) hd.1 hd.2
    16731 (Proportion decay HEM_EG_MAX_VALUE HEM_EG_MAX_TICKS_AD).toNat attack_128_duration
    (Int.toNat_of_nonneg (by omega))
  obtain ⟨a, hrun⟩ := attack_phase 128 decay sustain release (by decide) 16730
    (by rw [← attack_128_duration]; decide)
  have hk : ((16730 : Nat) : Int) + 1 = Proportion (constrain 128 1 HEM_EG_MAX_VALUE)
      HEM_EG_MAX_VALUE HEM_EG_MAX_TICKS_AD := by rw [← attack_128_duration]; decide
  have hgen : sustain ≠ 1 →
      GetEnvelopeAmplitude true 128 decay sustain release
          ⟨HEM_EG_ATTACK, (16730 : Nat), a, true⟩ =
        (simfloat2int (int2simfloat HEMISPHERE_MAX_CV -
            Int.tdiv (int2simfloat HEMISPHERE_MAX_CV -
                int2simfloat (Proportion sustain HEM_EG_MAX_VALUE HEMISPHERE_MAX_CV))
              (Proportion decay HEM_EG_MAX_VALUE HEM_EG_MAX_TICKS_AD)),
         ⟨HEM_EG_DECAY, 0,
           int2simfloat HEMISPHERE_MAX_CV -
             Int.tdiv (int2simfloat HEMISPHERE_MAX_CV -
                 int2simfloat (Proportion sustain HEM_EG_MAX_VALUE HEMISPHERE_MAX_CV))
               (Proportion decay HEM_EG_MAX_VALUE HEM_EG_MAX_TICKS_AD), true⟩) := by
    intro hs1
    have hend := held_attack_end 128 decay sustain release (16730 : Nat) a (by decide) hs1
      hd.1 hd.2 hk
    have hret := GetEnvelopeAmplitude_ret true 128 decay sustain release
      ⟨HEM_EG_ATTACK, (16730 : Nat), a, true⟩
    have hval : wrap32 (125829120 - sdiv (wrap32 (125829120 -
        int2simfloat (Proportion sustain HEM_EG_MAX_VALUE HEMISPHERE_MAX_CV)))
        (Proportion decay HEM_EG_MAX_VALUE HEM_EG_MAX_TICKS_AD)) =
        int2simfloat HEMISPHERE_MAX_CV -
          Int.tdiv (int2simfloat HEMISPHERE_MAX_CV -
            int2simfloat (Proportion sustain HEM_EG_MAX_VALUE HEMISPHERE_MAX_CV))
          (Proportion decay HEM_EG_MAX_VALUE HEM_EG_MAX_TICKS_AD) := by
      rw [full_scale]
      generalize int2simfloat (Proportion sustain HEM_EG_MAX_VALUE HEMISPHERE_MAX_CV) = t
        at htg
      generalize Proportion decay HEM_EG_MAX_VALUE HEM_EG_MAX_TICKS_AD = TD at hTD
      have hq := tdiv_bounds_nonneg (x := 125829120 - t) (d := TD) (by omega) (by omega)
      rw [wrap32_of_isInt32 (x := 125829120 - t) (by omega) (by omega)]
      simp only [sdiv]
      generalize Int.tdiv (125829120 - t) TD = q at hq
      rw [wrap32_of_isInt32 (x := q) (by omega) (by omega)]
      rw [wrap32_of_isInt32 (by omega) (by omega)]
    rw [hval] at hend
    rw [hend] at hret
    exact Prod.ext hret hend
  refine ⟨by decide, h1, ?_, ?_, ?_, ?_⟩
  · rw [hrun]
    exact attackIf_end 128 (16730 : Nat) a (by decide) hk
  · intro hs1
    rw [hrun]
    exact hgen hs1
  · intro hs255
    rw [hrun, hgen (by omega), hs255]
    have h255 : int2simfloat (Proportion 255 HEM_EG_MAX_VALUE HEMISPHERE_MAX_CV) =
        int2simfloat HEMISPHERE_MAX_CV := by decide
    rw [h255, sub_self, Int.zero_tdiv, sub_zero]
    have hr : simfloat2int (int2simfloat HEMISPHERE_MAX_CV) = HEMISPHERE_MAX_CV := by decide
    rw [hr]
  · intro hs1
    subst hs1
    have hend := held_attack_end_min_sustain 128 decay release (16730 : Nat) a (by decide) hk
    have hret := GetEnvelopeAmplitude_ret true 128 decay 1 release
      ⟨HEM_EG_ATTACK, (16730 : Nat), a, true⟩
    rw [hend] at hret
    rw [hrun]
    exact Prod.ext hret hend

/-- C8 (amended) at `decay = 128`, `sustain = 255`, `release = 7`: the one case in which
the tick that ends the attack ends at full scale. -/
theorem C8_attack_128_witness :
    (1 ≤ (128 : Int) ∧ (128 : Int) ≤ 255) ∧ (1 ≤ (255 : Int) ∧ (255 : Int) ≤ 255) ∧
    GetEnvelopeAmplitude true 128 128 255 7
        (run initState (List.replicate 16731 ⟨true, 128, 128, 255, 7⟩)) =
      (HEMISPHERE_MAX_CV, ⟨HEM_EG_DECAY, 0, int2simfloat HEMISPHERE_MAX_CV, true⟩) :=
  ⟨by decide, by decide,
    (C8_attack_128 128 255 7 (by decide) (by decide)).2.2.2.2.1 rfl⟩

/-! ### Minimum settings -/

theorem constrain_le_one {x : Int} (h : x ≤ 1) : constrain x 1 HEM_EG_MAX_VALUE = 1 := by
  unfold constrain HEM_EG_MAX_VALUE
  split
  · rfl
  · split <;> omega

theorem simfloat2int_full_scale :
    simfloat2int (int2simfloat HEMISPHERE_MAX_CV) = HEMISPHERE_MAX_CV := by decide

theorem level_zero :
    int2simfloat (Proportion (wrap32 (1 - 1)) HEM_EG_MAX_VALUE HEMISPHERE_MAX_CV) = 0 := by
  decide

/-- The state left by a rising-edge call when `attack ≤ 1`. -/
theorem rising_state_min_attack (attack decay sustain release : Int) (s : EGState)
    (hg : s.gated = false) (ha : attack ≤ 1) :
    (GetEnvelopeAmplitude true attack decay sustain release s).2 =
      ⟨HEM_EG_DECAY, 0, 125829120, true⟩ := by
  rw [GetEnvelopeAmplitude_rising _ _ _ _ _ hg, AttackAmplitude_eq]
  unfold attackTicksRemaining
  rw [if_pos (constrain_le_one ha), if_pos (le_refl _)]

/-- C11: minimum attack is instantaneous. For every state with the latch clear (any
stage, `stage_ticks`, amplitude), every `decay`, `sustain`, `release` and every
`attack ≤ 1` (which clamps to 1), a gate-high call leaves stage Decay, `stage_ticks = 0`,
amplitude `int2simfloat(HEMISPHERE_MAX_CV)`, latch set, and returns `HEMISPHERE_MAX_CV`. -/
theorem C11_min_attack_instant (attack decay sustain release : Int) (s : EGState)
    (hg : s.gated = false) (ha : attack ≤ 1) :
    GetEnvelopeAmplitude true attack decay sustain release s =
      (HEMISPHERE_MAX_CV, ⟨HEM_EG_DECAY, 0, int2simfloat HEMISPHERE_MAX_CV, true⟩) := by
  have hst : (GetEnvelopeAmplitude true attack decay sustain release s).2 =
      ⟨HEM_EG_DECAY, 0, int2simfloat HEMISPHERE_MAX_CV, true⟩ := by
    rw [GetEnvelopeAmplitude_rising _ _ _ _ _ hg, AttackAmplitude_eq]
    unfold attackTicksRemaining
    rw [if_pos (constrain_le_one ha), if_pos (le_refl _), full_scale]
  have hret := GetEnvelopeAmplitude_ret true attack decay sustain release s
  rw [hst] at hret
  exact Prod.ext (hret.trans simfloat2int_full_scale) hst

/-- C11 at a concrete state: a trigger out of Release with `attack = 1`. -/
theorem C11_min_attack_instant_witness :
    (⟨HEM_EG_RELEASE, 9, 500000, false⟩ : EGState).gated = false ∧ (1 : Int) ≤ 1 ∧
    GetEnvelopeAmplitude true 1 10 128 10 ⟨HEM_EG_RELEASE, 9, 500000, false⟩ =
      (HEMISPHERE_MAX_CV, ⟨HEM_EG_DECAY, 0, int2simfloat HEMISPHERE_MAX_CV, true⟩) :=
  ⟨rfl, by decide,
    C11_min_attack_instant 1 10 128 10 ⟨HEM_EG_RELEASE, 9, 500000, false⟩ rfl (by decide)⟩

/-- C12: minimum sustain skips decay. For every state with stage Decay and the latch set
(any `stage_ticks`, any amplitude), every `attack`, `decay`, `release`, and `sustain = 1`,
a gate-high call leaves stage Sustain with amplitude 0 (and `stage_ticks = 0`, latch set)
and returns 0. -/
theorem C12_min_sustain_skips_decay (attack decay release : Int) (s : EGState)
    (hst : s.stage = HEM_EG_DECAY) (hg : s.gated = true) :
    GetEnvelopeAmplitude true attack decay 1 release s =
      (0, ⟨HEM_EG_SUSTAIN, 0, 0, true⟩) := by
  obtain ⟨stage, k, a, gated⟩ := s
  dsimp only at hst hg
  subst hst hg
  have h : (GetEnvelopeAmplitude true attack decay 1 release ⟨HEM_EG_DECAY, k, a, true⟩).2 =
      ⟨HEM_EG_SUSTAIN, 0, 0, true⟩ := by
    rw [GetEnvelopeAmplitude_held _ _ _ _ _ rfl]
    dsimp only
    rw [attackIf_decay]
    have h2 : decayIf decay 1 ⟨HEM_EG_DECAY, wrap32 (k + 1), a, true⟩ =
        ⟨HEM_EG_SUSTAIN, 0, int2simfloat (Proportion 1 HEM_EG_MAX_VALUE HEMISPHERE_MAX_CV),
          true⟩ := by
      unfold decayIf
      rw [if_pos rfl, DecayAmplitude_eq]
      unfold decayTicksRemaining
      rw [if_pos rfl, if_pos (le_refl _)]
    rw [h2, sustainIf_sustain, level_zero]
  have hret := GetEnvelopeAmplitude_ret true attack decay 1 release ⟨HEM_EG_DECAY, k, a, true⟩
  rw [h] at hret
  exact Prod.ext hret h

/-- C12 at a concrete state: Decay at full scale, 40 ticks in. -/
theorem C12_min_sustain_skips_decay_witness :
    (⟨HEM_EG_DECAY, 40, 125829120, true⟩ : EGState).stage = HEM_EG_DECAY ∧
    (⟨HEM_EG_DECAY, 40, 125829120, true⟩ : EGState).gated = true ∧
    GetEnvelopeAmplitude true 3 200 1 7 ⟨HEM_EG_DECAY, 40, 125829120, true⟩ =
      (0, ⟨HEM_EG_SUSTAIN, 0, 0, true⟩) :=
  ⟨rfl, rfl, C12_min_sustain_skips_decay 3 200 7 ⟨HEM_EG_DECAY, 40, 125829120, true⟩ rfl rfl⟩

theorem releaseTicksRemaining_min {release : Int} (hr : release ≤ 1) (k : Int) :
    releaseTicksRemaining release k = 0 := by
  unfold releaseTicksRemaining
  rw [constrain_le_one hr]
  exact if_pos (by decide)

/-- C13: minimum release is instantaneous. For every state with the latch set or with
stage Release (any `stage_ticks`, any amplitude), every `attack`, `decay`, `sustain` and
every `release ≤ 1` (which clamps to 1), one gate-low call leaves stage Idle,
`stage_ticks = 0`, amplitude 0, latch clear, and returns 0. -/
theorem C13_min_release_instant (attack decay sustain release : Int) (s : EGState)
    (hs : s.gated = true ∨ s.stage = HEM_EG_RELEASE) (hr : release ≤ 1) :
    GetEnvelopeAmplitude false attack decay sustain release s =
      (0, ⟨HEM_EG_NO_STAGE, 0, 0, false⟩) := by
  have h : (GetEnvelopeAmplitude false attack decay sustain release s).2 =
      ⟨HEM_EG_NO_STAGE, 0, 0, false⟩ := by
    cases hg : s.gated
    · have hst : s.stage = HEM_EG_RELEASE := by
        rcases hs with h | h
        · rw [hg] at h; exact absurd h (by decide)
        · exact h
      rw [GetEnvelopeAmplitude_low_release _ _ _ _ _ hg hst, ReleaseAmplitude_eq,
        releaseTicksRemaining_min hr, if_pos (Or.inl (le_refl _))]
    · rw [GetEnvelopeAmplitude_falling _ _ _ _ _ hg, ReleaseAmplitude_eq,
        releaseTicksRemaining_min hr, if_pos (Or.inl (le_refl _))]
  have hret := GetEnvelopeAmplitude_ret false attack decay sustain release s
  rw [h] at hret
  exact Prod.ext hret h

/-- C13 at a concrete state: the gate drops in Sustain with `release = 1`. -/
theorem C13_min_release_instant_witness :
    ((⟨HEM_EG_SUSTAIN, 12, 62000000, true⟩ : EGState).gated = true ∨
      (⟨HEM_EG_SUSTAIN, 12, 62000000, true⟩ : EGState).stage = HEM_EG_RELEASE) ∧
    (1 : Int) ≤ 1 ∧
    GetEnvelopeAmplitude false 5 6 128 1 ⟨HEM_EG_SUSTAIN, 12, 62000000, true⟩ =
      (0, ⟨HEM_EG_NO_STAGE, 0, 0, false⟩) :=
  ⟨Or.inl rfl, by decide,
    C13_min_release_instant 5 6 128 1 ⟨HEM_EG_SUSTAIN, 12, 62000000, true⟩ (Or.inl rfl)
      (by decide)⟩

/-! ### Dispatch on a sustained gate -/

/-- C14 (counterexample). In the state reached after 260 gate-high calls with
`attack = 2` (Attack, `stage_ticks = 259`, full scale), one more gate-high call with
`decay = 1`, `sustain = 2` runs the Attack update and then, in the same call, the Decay
update: it leaves amplitude 124868766, where the single update for the starting stage
would leave full scale 125829120. -/
theorem C14_counterexample :
    (GetEnvelopeAmplitude true 2 1 2 1 ⟨HEM_EG_ATTACK, 259, 125829120, true⟩).2 =
      ⟨HEM_EG_DECAY, 0, 124868766, true⟩ ∧
    singleDispatch 2 1 2 ⟨HEM_EG_ATTACK, 259, 125829120, true⟩ =
      ⟨HEM_EG_DECAY, 0, 125829120, true⟩ ∧
    (GetEnvelopeAmplitude true 2 1 2 1 ⟨HEM_EG_ATTACK, 259, 125829120, true⟩).2 ≠
      singleDispatch 2 1 2 ⟨HEM_EG_ATTACK, 259, 125829120, true⟩ := by
  decide

/-- C14 (amended). For every state with the latch set and stage Attack, Decay or Sustain,
and all parameters, a gate-high call yields the state obtained by incrementing
`stage_ticks`, then running in this order the Attack update if the stage is Attack, the
Decay update if the stage is then Decay, and the Sustain update if the stage is then
Sustain, and setting the latch. This is the single update of the stage held at the start
of the call whenever that update leaves the stage unchanged. -/
theorem C14_chained_dispatch (attack decay sustain release : Int) (s : EGState)
    (hg : s.gated = true)
    (hst : s.stage = HEM_EG_ATTACK ∨ s.stage = HEM_EG_DECAY ∨ s.stage = HEM_EG_SUSTAIN) :
    (GetEnvelopeAmplitude true attack decay sustain release s).2 =
      { sustainIf sustain (decayIf decay sustain (attackIf attack
          { s with stage_ticks := wrap32 (s.stage_ticks + 1) })) with gated := true } ∧
    ((singleDispatch attack decay sustain s).stage = s.stage →
      (GetEnvelopeAmplitude true attack decay sustain release s).2 =
        singleDispatch attack decay sustain s) := by
  refine ⟨GetEnvelopeAmplitude_held _ _ _ _ _ hg, ?_⟩
  rw [GetEnvelopeAmplitude_held _ _ _ _ _ hg]
  obtain ⟨stage, k, a, gated⟩ := s
  dsimp only at hg hst ⊢
  subst hg
  have hAD : HEM_EG_ATTACK ≠ HEM_EG_DECAY := by decide
  have hAS : HEM_EG_ATTACK ≠ HEM_EG_SUSTAIN := by decide
  have hDS : HEM_EG_DECAY ≠ HEM_EG_SUSTAIN := by decide
  rcases hst with h | h | h
  · subst h
    intro hsame
    rcases AttackAmplitude_cases attack ⟨HEM_EG_ATTACK, wrap32 (k + 1), a, true⟩
      with ⟨x, hx⟩ | hx
    · simp only [singleDispatch, attackIf, if_true, hx]
      rw [decayIf_attack, sustainIf_attack]
    · simp only [singleDispatch, if_true, hx] at hsame
      exact absurd hsame hAD.symm
  · subst h
    intro hsame
    rcases DecayAmplitude_cases decay sustain ⟨HEM_EG_DECAY, wrap32 (k + 1), a, true⟩
      with ⟨x, hx⟩ | hx
    · simp only [singleDispatch, if_neg hAD.symm, if_true, hx]
      rw [attackIf_decay]
      simp only [decayIf, if_true, hx]
      rw [sustainIf_decay]
    · simp only [singleDispatch, if_neg hAD.symm, if_true, hx] at hsame
      exact absurd hsame hDS.symm
  · subst h
    intro _
    simp only [singleDispatch, if_neg hAS.symm, if_neg hDS.symm, if_true]
    rw [attackIf_sustain, decayIf_sustain]
    simp only [sustainIf, if_true]

/-- C14 (amended) at a concrete state: Attack, three ticks in, with `attack = 200`. -/
theorem C14_chained_dispatch_witness :
    (⟨HEM_EG_ATTACK, 3, 40000, true⟩ : EGState).gated = true ∧
    ((⟨HEM_EG_ATTACK, 3, 40000, true⟩ : EGState).stage = HEM_EG_ATTACK ∨
      (⟨HEM_EG_ATTACK, 3, 40000, true⟩ : EGState).stage = HEM_EG_DECAY ∨
      (⟨HEM_EG_ATTACK, 3, 40000, true⟩ : EGState).stage = HEM_EG_SUSTAIN) ∧
    ((GetEnvelopeAmplitude true 200 10 128 10 ⟨HEM_EG_ATTACK, 3, 40000, true⟩).2 =
      { sustainIf 128 (decayIf 10 128 (attackIf 200
          { (⟨HEM_EG_ATTACK, 3, 40000, true⟩ : EGState) with
            stage_ticks := wrap32
              ((⟨HEM_EG_ATTACK, 3, 40000, true⟩ : EGState).stage_ticks + 1) })) with
        gated := true } ∧
    ((singleDispatch 200 10 128 ⟨HEM_EG_ATTACK, 3, 40000, true⟩).stage =
        (⟨HEM_EG_ATTACK, 3, 40000, true⟩ : EGState).stage →
      (GetEnvelopeAmplitude true 200 10 128 10 ⟨HEM_EG_ATTACK, 3, 40000, true⟩).2 =
        singleDispatch 200 10 128 ⟨HEM_EG_ATTACK, 3, 40000, true⟩)) :=
  ⟨rfl, Or.inl rfl,
    C14_chained_dispatch 200 10 128 10 ⟨HEM_EG_ATTACK, 3, 40000, true⟩ rfl (Or.inl rfl)⟩

/-! ### Latch, sustain level, low gate -/

theorem step_gated (s : EGState) (i : EGInput) : (step s i).gated = i.gateHigh := by
  obtain ⟨g, attack, decay, sustain, release⟩ := i
  unfold step GetEnvelopeAmplitude
  cases g <;> rfl

/-- C16: gate/stage consistency. In every state reached from the initial state by calls
with any gates and any integer parameters: with the latch set the stage is Attack, Decay
or Sustain; with the latch clear it is Release or Idle; so the stage is never Release
while the latch is set; and after every call the latch equals the gate value passed. -/
theorem C16_gate_stage_consistency (l : List EGInput) :
    ((run initState l).gated = true →
      (run initState l).stage = HEM_EG_ATTACK ∨ (run initState l).stage = HEM_EG_DECAY ∨
        (run initState l).stage = HEM_EG_SUSTAIN) ∧
    ((run initState l).gated = false →
      (run initState l).stage = HEM_EG_RELEASE ∨ (run initState l).stage = HEM_EG_NO_STAGE) ∧
    ((run initState l).gated = true → (run initState l).stage ≠ HEM_EG_RELEASE) ∧
    (∀ i : EGInput, (run initState (l ++ [i])).gated = i.gateHigh) := by
  have hinv := run_stageInv l initState initState_stageInv
  refine ⟨hinv.1, ?_, ?_, ?_⟩
  · intro hg
    rcases hinv.2 hg with h | h
    · exact Or.inl h
    · exact Or.inr h.1
  · intro hg
    rcases hinv.1 hg with h | h | h <;> rw [h] <;> decide
  · intro i
    rw [run_append_single]
    exact step_gated _ i

/-- C17: sustain is held and follows the parameter live. For every state with stage
Sustain and the latch set, a gate-high call leaves stage Sustain (latch set) and sets the
amplitude to `int2simfloat(Proportion(sustain - 1, 255, HEMISPHERE_MAX_CV))` for the
`sustain` passed on that call, `sustain - 1` being the 32-bit difference, whatever the
previous amplitude, `stage_ticks`, `attack`, `decay` and `release`; the call returns that
amplitude shifted right by 14. When `sustain - 1` fits 32 bits it is the plain
difference. -/
theorem C17_sustain_live (attack decay sustain release : Int) (s : EGState)
    (hst : s.stage = HEM_EG_SUSTAIN) (hg : s.gated = true) :
    GetEnvelopeAmplitude true attack decay sustain release s =
      (simfloat2int (int2simfloat
          (Proportion (wrap32 (sustain - 1)) HEM_EG_MAX_VALUE HEMISPHERE_MAX_CV)),
       ⟨HEM_EG_SUSTAIN, wrap32 (s.stage_ticks + 1),
         int2simfloat (Proportion (wrap32 (sustain - 1)) HEM_EG_MAX_VALUE HEMISPHERE_MAX_CV),
         true⟩) ∧
    (isInt32 (sustain - 1) →
      (GetEnvelopeAmplitude true attack decay sustain release s).2.stage = HEM_EG_SUSTAIN ∧
      (GetEnvelopeAmplitude true attack decay sustain release s).2.amplitude =
        int2simfloat (Proportion (sustain - 1) HEM_EG_MAX_VALUE HEMISPHERE_MAX_CV)) := by
  obtain ⟨stage, k, a, gated⟩ := s
  dsimp only at hst hg ⊢
  subst hst hg
  have h := held_sustain attack decay sustain release k a
  have hret := GetEnvelopeAmplitude_ret true attack decay sustain release
    ⟨HEM_EG_SUSTAIN, k, a, true⟩
  rw [h] at hret
  refine ⟨Prod.ext hret h, ?_⟩
  intro hs
  rw [h, wrap32_of_isInt32 hs.1 hs.2]
  exact ⟨rfl, rfl⟩

/-- C17 at a concrete state: Sustain held at the level of `sustain = 128`, then a call
with `sustain = 200`. -/
theorem C17_sustain_live_witness :
    (⟨HEM_EG_SUSTAIN, 77, 62423040, true⟩ : EGState).stage = HEM_EG_SUSTAIN ∧
    (⟨HEM_EG_SUSTAIN, 77, 62423040, true⟩ : EGState).gated = true ∧
    isInt32 ((200 : Int) - 1) ∧
    (GetEnvelopeAmplitude true 9 9 200 9 ⟨HEM_EG_SUSTAIN, 77, 62423040, true⟩).2.stage
      = HEM_EG_SUSTAIN ∧
    (GetEnvelopeAmplitude true 9 9 200 9 ⟨HEM_EG_SUSTAIN, 77, 62423040, true⟩).2.amplitude =
      int2simfloat (Proportion (200 - 1) HEM_EG_MAX_VALUE HEMISPHERE_MAX_CV) :=
  ⟨rfl, rfl, by decide,
    (C17_sustain_live 9 9 200 9 ⟨HEM_EG_SUSTAIN, 77, 62423040, true⟩ rfl rfl).2 (by decide)⟩

/-- A gate-low call on a state with a 32-bit amplitude `≥ 0` leaves an amplitude between
0 and the amplitude before the call. -/
theorem low_gate_amp_le (attack decay sustain release : Int) (s : EGState)
    (h0 : 0 ≤ s.amplitude) (h32 : s.amplitude ≤ 2147483647) :
    0 ≤ (GetEnvelopeAmplitude false attack decay sustain release s).2.amplitude ∧
    (GetEnvelopeAmplitude false attack decay sustain release s).2.amplitude ≤ s.amplitude := by
  cases hg : s.gated
  · by_cases hst : s.stage = HEM_EG_RELEASE
    · rw [GetEnvelopeAmplitude_low_release _ _ _ _ _ hg hst]
      exact ReleaseAmplitude_amp_le release _ h0 h32
    · rw [GetEnvelopeAmplitude_low_other _ _ _ _ _ hg hst]
      exact ⟨h0, le_refl _⟩
  · rw [GetEnvelopeAmplitude_falling _ _ _ _ _ hg]
    exact ReleaseAmplitude_amp_le release _ h0 h32

/-- C20: a low gate never raises the output. For every state with a 32-bit amplitude
`≥ 0` (any stage, `stage_ticks`, latch) and all integer parameters, a gate-low call
leaves an amplitude that is `≥ 0` and at most the amplitude before the call; the value it
returns is `≥ 0` and at most the amplitude before the call shifted right by 14; and a
further gate-low call, with any parameters, returns at most what this call returned. -/
theorem C20_low_gate_never_raises (attack decay sustain release : Int) (s : EGState)
    (h0 : 0 ≤ s.amplitude) (h32 : isInt32 s.amplitude) :
    0 ≤ (GetEnvelopeAmplitude false attack decay sustain release s).2.amplitude ∧
    (GetEnvelopeAmplitude false attack decay sustain release s).2.amplitude ≤ s.amplitude ∧
    0 ≤ (GetEnvelopeAmplitude false attack decay sustain release s).1 ∧
    (GetEnvelopeAmplitude false attack decay sustain release s).1 ≤
      simfloat2int s.amplitude ∧
    (∀ attack2 decay2 sustain2 release2 : Int,
      (GetEnvelopeAmplitude false attack2 decay2 sustain2 release2
          (GetEnvelopeAmplitude false attack decay sustain release s).2).1 ≤
        (GetEnvelopeAmplitude false attack decay sustain release s).1) := by
  have hamp := low_gate_amp_le attack decay sustain release s h0 h32.2
  have hnext : ∀ attack2 decay2 sustain2 release2 : Int,
      (GetEnvelopeAmplitude false attack2 decay2 sustain2 release2
          (GetEnvelopeAmplitude false attack decay sustain release s).2).2.amplitude ≤
        (GetEnvelopeAmplitude false attack decay sustain release s).2.amplitude := by
    intro attack2 decay2 sustain2 release2
    exact (low_gate_amp_le attack2 decay2 sustain2 release2 _ hamp.1
      (le_trans hamp.2 h32.2)).2
  refine ⟨hamp.1, hamp.2, ?_, ?_, ?_⟩
  · rw [GetEnvelopeAmplitude_ret]
    unfold simfloat2int
    omega
  · rw [GetEnvelopeAmplitude_ret]
    unfold simfloat2int
    omega
  · intro attack2 decay2 sustain2 release2
    have h2 := hnext attack2 decay2 sustain2 release2
    rw [GetEnvelopeAmplitude_ret, GetEnvelopeAmplitude_ret false attack decay sustain release s]
    unfold simfloat2int
    omega

/-- C20 at a concrete state: Release, five ticks in. -/
theorem C20_low_gate_never_raises_witness :
    0 ≤ (⟨HEM_EG_RELEASE, 5, 90000000, false⟩ : EGState).amplitude ∧
    isInt32 (⟨HEM_EG_RELEASE, 5, 90000000, false⟩ : EGState).amplitude ∧
    0 ≤ (GetEnvelopeAmplitude false 4 4 4 100 ⟨HEM_EG_RELEASE, 5, 90000000, false⟩).2.amplitude ∧
    (GetEnvelopeAmplitude false 4 4 4 100 ⟨HEM_EG_RELEASE, 5, 90000000, false⟩).2.amplitude ≤
      (⟨HEM_EG_RELEASE, 5, 90000000, false⟩ : EGState).amplitude ∧
    0 ≤ (GetEnvelopeAmplitude false 4 4 4 100 ⟨HEM_EG_RELEASE, 5, 90000000, false⟩).1 ∧
    (GetEnvelopeAmplitude false 4 4 4 100 ⟨HEM_EG_RELEASE, 5, 90000000, false⟩).1 ≤
      simfloat2int (⟨HEM_EG_RELEASE, 5, 90000000, false⟩ : EGState).amplitude ∧
    (∀ attack2 decay2 sustain2 release2 : Int,
      (GetEnvelopeAmplitude false attack2 decay2 sustain2 release2
          (GetEnvelopeAmplitude false 4 4 4 100
            ⟨HEM_EG_RELEASE, 5, 90000000, false⟩).2).1 ≤
        (GetEnvelopeAmplitude false 4 4 4 100 ⟨HEM_EG_RELEASE, 5, 90000000, false⟩).1) :=
  ⟨by decide, by decide,
    C20_low_gate_never_raises 4 4 4 100 ⟨HEM_EG_RELEASE, 5, 90000000, false⟩ (by decide)
      (by decide)⟩

/-! ### Release runs out -/

/-- One release tick from `stage_ticks = k`: the envelope turns off, or stays in Release
with `stage_ticks = k + 1` still below the release duration. -/
theorem release_tick (release k a : Int) (g : Bool) (hk0 : 0 ≤ k) (hk : k ≤ 131071) :
    ReleaseAmplitude release ⟨HEM_EG_RELEASE, wrap32 (k + 1), a, g⟩ =
        ⟨HEM_EG_NO_STAGE, 0, 0, g⟩ ∨
    ∃ b, ReleaseAmplitude release ⟨HEM_EG_RELEASE, wrap32 (k + 1), a, g⟩ =
        ⟨HEM_EG_RELEASE, k + 1, b, g⟩ ∧
      k + 1 < Proportion (constrain release 1 HEM_EG_MAX_VALUE - 1) HEM_EG_MAX_VALUE
        HEM_EG_MAX_TICKS_R := by
  have hw : wrap32 (k + 1) = k + 1 := wrap32_of_isInt32 (by omega) (by omega)
  rw [hw, ReleaseAmplitude_eq]
  dsimp only
  by_cases hc : releaseTicksRemaining release (k + 1) ≤ 0 ∨ a ≤ 0
  · left
    rw [if_pos hc]
  · right
    rw [if_neg hc]
    refine ⟨_, rfl, ?_⟩
    have hpos := not_le.mp (not_or.mp hc).1
    unfold releaseTicksRemaining at hpos
    rw [effective_release_eq] at hpos
    have hr := Proportion_range (constrain release 1 HEM_EG_MAX_VALUE - 1) HEM_EG_MAX_VALUE
      HEM_EG_MAX_TICKS_R
    by_cases he : constrain release 1 HEM_EG_MAX_VALUE - 1 = 0
    · rw [if_pos he] at hpos
      exact absurd hpos (lt_irrefl _)
    · rw [if_neg he] at hpos
      generalize Proportion (constrain release 1 HEM_EG_MAX_VALUE - 1) HEM_EG_MAX_VALUE
        HEM_EG_MAX_TICKS_R = T at hr hpos ⊢
      rw [wrap32_of_isInt32 (by omega) (by omega)] at hpos
      omega

/-- A gate-low call on a state satisfying the invariants: the result is the Idle state,
or Release with `1 ≤ stage_ticks` below the release duration. -/
theorem low_step_cases (s : EGState) (i : EGInput) (hi : i.gateHigh = false)
    (h1 : stageInv s) (h2 : releaseTicksInv s) :
    step s i = ⟨HEM_EG_NO_STAGE, 0, 0, false⟩ ∨
    ∃ k b, step s i = ⟨HEM_EG_RELEASE, k, b, false⟩ ∧ 1 ≤ k ∧
      k < Proportion (constrain i.release 1 HEM_EG_MAX_VALUE - 1) HEM_EG_MAX_VALUE
        HEM_EG_MAX_TICKS_R := by
  obtain ⟨g, attack, decay, sustain, release⟩ := i
  dsimp only at hi ⊢
  subst hi
  obtain ⟨stage, k, a, gated⟩ := s
  unfold step
  dsimp only
  cases gated
  · by_cases hst : stage = HEM_EG_RELEASE
    · subst hst
      have hk : 0 ≤ k ∧ k ≤ 131071 := h2 rfl
      rw [GetEnvelopeAmplitude_low_release _ _ _ _ _ rfl rfl]
      rcases release_tick release k a false hk.1 hk.2 with h | ⟨b, h, hlt⟩
      · left; rw [h]
      · right; exact ⟨k + 1, b, by rw [h], by omega, hlt⟩
    · left
      rw [GetEnvelopeAmplitude_low_other _ _ _ _ _ rfl hst]
      rcases h1.2 rfl with h | ⟨ha, hb, hc⟩
      · exact absurd h hst
      · dsimp only at ha hb hc
        rw [ha, hb, hc]
  · rw [GetEnvelopeAmplitude_falling _ _ _ _ _ rfl]
    rcases release_tick release 0 a true (le_refl _) (by omega) with h | ⟨b, h, hlt⟩
    · left; rw [h]
    · right; exact ⟨0 + 1, b, by rw [h], by omega, hlt⟩

theorem step_releaseTicksInv (s : EGState) (i : EGInput) (h1 : stageInv s)
    (h2 : releaseTicksInv s) : releaseTicksInv (step s i) := by
  intro hrel
  cases hg : i.gateHigh
  · rcases low_step_cases s i hg h1 h2 with h | ⟨k, b, h, hk1, hk2⟩
    · rw [h] at hrel
      exact absurd hrel (by decide)
    · have hr := Proportion_range (constrain i.release 1 HEM_EG_MAX_VALUE - 1)
        HEM_EG_MAX_VALUE HEM_EG_MAX_TICKS_R
      rw [h]
      dsimp only
      omega
  · have hgs : (step s i).gated = true := by rw [step_gated, hg]
    rcases (step_stageInv s i h1).1 hgs with h | h | h <;> rw [h] at hrel <;>
      exact absurd hrel (by decide)

theorem run_releaseTicksInv (l : List EGInput) (s : EGState) (h1 : stageInv s)
    (h2 : releaseTicksInv s) : releaseTicksInv (run s l) := by
  induction l generalizing s with
  | nil => exact h2
  | cons i l ih => exact ih _ (step_stageInv s i h1) (step_releaseTicksInv s i h1 h2)

theorem initState_releaseTicksInv : releaseTicksInv initState := by
  intro h
  exact absurd h (by decide)

/-- Gate-low calls leave the Idle state as it is. -/
theorem idle_run (l : List EGInput) (hl : ∀ i ∈ l, i.gateHigh = false) :
    run ⟨HEM_EG_NO_STAGE, 0, 0, false⟩ l = ⟨HEM_EG_NO_STAGE, 0, 0, false⟩ := by
  induction l with
  | nil => rfl
  | cons i l ih =>
    have hi := hl i (List.mem_cons_self _ _)
    have hs : step ⟨HEM_EG_NO_STAGE, 0, 0, false⟩ i = ⟨HEM_EG_NO_STAGE, 0, 0, false⟩ := by
      unfold step
      rw [hi]
      exact GetEnvelopeAmplitude_low_other _ _ _ _ _ rfl (by decide)
    show run (step _ i) l = _
    rw [hs]
    exact ih (fun j hj => hl j (List.mem_cons_of_mem _ hj))

/-- Gate-low calls with a constant `release` from Release at `stage_ticks = k`: the
envelope is off, or still in Release with every call counted and the count below the
release duration. -/
theorem release_countdown (release : Int) (l : List EGInput)
    (hl : ∀ i ∈ l, i.gateHigh = false ∧ i.release = release) (k a : Int)
    (hk0 : 0 ≤ k)
    (hk : k < Proportion (constrain release 1 HEM_EG_MAX_VALUE - 1) HEM_EG_MAX_VALUE
      HEM_EG_MAX_TICKS_R) :
    run ⟨HEM_EG_RELEASE, k, a, false⟩ l = ⟨HEM_EG_NO_STAGE, 0, 0, false⟩ ∨
    ∃ b, run ⟨HEM_EG_RELEASE, k, a, false⟩ l = ⟨HEM_EG_RELEASE, k + l.length, b, false⟩ ∧
      k + l.length < Proportion (constrain release 1 HEM_EG_MAX_VALUE - 1) HEM_EG_MAX_VALUE
        HEM_EG_MAX_TICKS_R := by
  induction l generalizing k a with
  | nil =>
    right
    exact ⟨a, by simp [run], by simpa using hk⟩
  | cons i l ih =>
    obtain ⟨hi1, hi2⟩ := hl i (List.mem_cons_self _ _)
    have hl' : ∀ j ∈ l, j.gateHigh = false ∧ j.release = release :=
      fun j hj => hl j (List.mem_cons_of_mem _ hj)
    have hr := Proportion_range (constrain release 1 HEM_EG_MAX_VALUE - 1) HEM_EG_MAX_VALUE
      HEM_EG_MAX_TICKS_R
    have hstep : step ⟨HEM_EG_RELEASE, k, a, false⟩ i =
        (GetEnvelopeAmplitude false i.attack i.decay i.sustain release
          ⟨HEM_EG_RELEASE, k, a, false⟩).2 := by
      unfold step
      rw [hi1, hi2]
    rw [GetEnvelopeAmplitude_low_release _ _ _ _ _ rfl rfl] at hstep
    show run (step _ i) l = _ ∨ ∃ b, run (step _ i) l = _ ∧ _
    rcases release_tick release k a false hk0 (by omega) with h | ⟨b, h, hlt⟩
    · left
      rw [hstep, h]
      exact idle_run l (fun j hj => (hl' j hj).1)
    · rw [hstep, h]
      rcases ih hl' (k + 1) b (by omega) hlt with h2 | ⟨c, h2, hlt2⟩
      · left; exact h2
      · right
        refine ⟨c, ?_, ?_⟩
        · rw [h2]
          simp only [List.length_cons]
          push_cast
          rw [add_assoc, add_comm 1]
        · simp only [List.length_cons]
          push_cast
          omega

/-- C15: release always finishes within its duration. For every state reached from the
initial state (any gates, any parameters) and every constant `release`, with
`T_R = Proportion(clamp(release,1,255) - 1, 255, 133333)` the `total_stage_ticks` of
`ReleaseAmplitude`: after `max(1, T_R)` (or more) consecutive gate-low calls with that
`release`, whatever their `attack`, `decay` and `sustain`, the stage is Idle and the
amplitude is 0. -/
theorem C15_release_finishes (hist : List EGInput) (release : Int) (l : List EGInput)
    (hl : ∀ i ∈ l, i.gateHigh = false ∧ i.release = release)
    (hlen : max 1 (Proportion (constrain release 1 HEM_EG_MAX_VALUE - 1) HEM_EG_MAX_VALUE
      HEM_EG_MAX_TICKS_R) ≤ (l.length : Int)) :
    (run (run initState hist) l).stage = HEM_EG_NO_STAGE ∧
    (run (run initState hist) l).amplitude = 0 := by
  have h1 := run_stageInv hist initState initState_stageInv
  have h2 := run_releaseTicksInv hist initState initState_stageInv initState_releaseTicksInv
  generalize run initState hist = s at h1 h2
  cases l with
  | nil =>
    simp only [List.length_nil, Nat.cast_zero] at hlen
    omega
  | cons i l =>
    obtain ⟨hi1, hi2⟩ := hl i (List.mem_cons_self _ _)
    have hl' : ∀ j ∈ l, j.gateHigh = false ∧ j.release = release :=
      fun j hj => hl j (List.mem_cons_of_mem _ hj)
    simp only [List.length_cons] at hlen
    push_cast at hlen
    show (run (step s i) l).stage = _ ∧ (run (step s i) l).amplitude = _
    rcases low_step_cases s i hi1 h1 h2 with h | ⟨k, b, h, hk1, hk2⟩
    · rw [h, idle_run l (fun j hj => (hl' j hj).1)]
      exact ⟨rfl, rfl⟩
    · rw [hi2] at hk2
      rw [h]
      rcases release_countdown release l hl' k b (by omega) hk2 with h3 | ⟨c, h3, hlt⟩
      · rw [h3]
        exact ⟨rfl, rfl⟩
      · omega

/-- C15 at a concrete run: a trigger, then 520 gate-low calls with `release = 2`, whose
release duration is 520 ticks. -/
theorem C15_release_finishes_witness :
    (∀ i ∈ List.replicate 520 (⟨false, 2, 1, 128, 2⟩ : EGInput),
      i.gateHigh = false ∧ i.release = 2) ∧
    max 1 (Proportion (constrain 2 1 HEM_EG_MAX_VALUE - 1) HEM_EG_MAX_VALUE
      HEM_EG_MAX_TICKS_R) ≤ ((List.replicate 520 (⟨false, 2, 1, 128, 2⟩ : EGInput)).length : Int) ∧
    (run (run initState [⟨true, 2, 1, 128, 2⟩])
      (List.replicate 520 ⟨false, 2, 1, 128, 2⟩)).stage = HEM_EG_NO_STAGE ∧
    (run (run initState [⟨true, 2, 1, 128, 2⟩])
      (List.replicate 520 ⟨false, 2, 1, 128, 2⟩)).amplitude = 0 :=
  ⟨fun i hi => by rw [List.eq_of_mem_replicate hi]; exact ⟨rfl, rfl⟩,
    by rw [List.length_replicate]; decide,
    C15_release_finishes [⟨true, 2, 1, 128, 2⟩] 2 (List.replicate 520 ⟨false, 2, 1, 128, 2⟩)
      (fun i hi => by rw [List.eq_of_mem_replicate hi]; exact ⟨rfl, rfl⟩)
      (by rw [List.length_replicate]; decide)⟩

/-! ### Shape of the attack ramp -/

/-- The amplitude written by the `else` branch of `AttackAmplitude`, without wrap-around,
for an amplitude inside the output range. -/
theorem attack_increment_eq (a d : Int) (h0 : 0 ≤ a) (h1 : a ≤ 125829120) (hd : 0 < d) :
    wrap32 (a + sdiv (wrap32 (125829120 - a)) d) = a + (125829120 - a) / d := by
  have hw : wrap32 (125829120 - a) = 125829120 - a :=
    wrap32_of_isInt32 (by omega) (by omega)
  have hq := tdiv_bounds_nonneg (x := 125829120 - a) (d := d) (by omega) hd
  rw [hw]
  unfold sdiv
  rw [Int.tdiv_eq_ediv (by omega) (le_of_lt hd)] at hq ⊢
  generalize (125829120 - a) / d = q at hq
  rw [wrap32_of_isInt32 (x := q) (by omega) (by omega)]
  rw [wrap32_of_isInt32 (by omega) (by omega)]

/-- Dividing `q * m + r` by `m` when `0 ≤ r ≤ m`: the quotient is `q`, or `q + 1` exactly
when `r = m`. -/
theorem ramp_quotient (q m r : Int) (hm : 0 < m) (hr0 : 0 ≤ r) (hr : r ≤ m) :
    (r < m ∧ (q * m + r) / m = q) ∨ (r = m ∧ (q * m + r) / m = q + 1) := by
  have h : (q * m + r) / m = r / m + q := by
    rw [add_comm, Int.add_mul_ediv_right r q (ne_of_gt hm)]
  rcases lt_or_eq_of_le hr with hlt | heq
  · left
    refine ⟨hlt, ?_⟩
    rw [h, Int.ediv_eq_zero_of_lt hr0 hlt, zero_add]
  · right
    refine ⟨heq, ?_⟩
    rw [h, heq, Int.ediv_self (ne_of_gt hm), add_comm]

/-- One ramp step. With `m ≥ 1` ticks remaining and the headroom `FULL - a` written as
`q * m + r`, `0 ≤ r ≤ m`, the increase is `q` (when `r < m`) or `q + 1` (when `r = m`), and
the new headroom is `q * (m - 1) + r'` with `0 ≤ r' ≤ m - 1`, where `r' = m - 1` after an
increase of `q + 1`. -/
theorem ramp_step (q m a : Int) (hm : 0 < m)
    (hr0 : 0 ≤ 125829120 - a - q * m) (hr : 125829120 - a - q * m ≤ m) :
    ((125829120 - a) / m = q ∧ 125829120 - a - q * m < m ∧
      125829120 - (a + (125829120 - a) / m) - q * (m - 1) = 125829120 - a - q * m) ∨
    ((125829120 - a) / m = q + 1 ∧ 125829120 - a - q * m = m ∧
      125829120 - (a + (125829120 - a) / m) - q * (m - 1) = m - 1) := by
  have hsplit : 125829120 - a = q * m + (125829120 - a - q * m) := by ring
  have hmul : q * (m - 1) = q * m - q := by ring
  rcases ramp_quotient q m (125829120 - a - q * m) hm hr0 hr with ⟨hlt, hq⟩ | ⟨heq, hq⟩
  · left
    rw [← hsplit] at hq
    refine ⟨hq, hlt, ?_⟩
    rw [hq, hmul]
    ring
  · right
    rw [← hsplit] at hq
    refine ⟨hq, heq, ?_⟩
    rw [hq, hmul]
    omega

theorem gateHeld_succ (attack decay sustain release : Int) (n : Nat) :
    gateHeld attack decay sustain release (n + 1) =
      (GetEnvelopeAmplitude true attack decay sustain release
        (gateHeld attack decay sustain release n)).2 := by
  unfold gateHeld
  rw [run_replicate_succ]
  rfl

/-- The tick after an Attack tick that is not the last: the headroom to full scale is
divided by the ticks remaining. -/
theorem attack_ramp_succ (attack decay sustain release : Int) (ha : 2 ≤ attack) (k : Nat)
    (a : Int) (hk : (k : Int) + 1 < Proportion (constrain attack 1 HEM_EG_MAX_VALUE)
      HEM_EG_MAX_VALUE HEM_EG_MAX_TICKS_AD)
    (hrun : gateHeld attack decay sustain release (k + 1) = ⟨HEM_EG_ATTACK, k, a, true⟩)
    (h0 : 0 ≤ a) (h1 : a ≤ 125829120) :
    gateHeld attack decay sustain release (k + 1 + 1) =
      ⟨HEM_EG_ATTACK, ((k + 1 : Nat) : Int),
        a + (125829120 - a) / (Proportion (constrain attack 1 HEM_EG_MAX_VALUE)
          HEM_EG_MAX_VALUE HEM_EG_MAX_TICKS_AD - 1 - k), true⟩ := by
  rw [gateHeld_succ, hrun, held_attack_stay attack decay sustain release k a ha (by omega) hk,
    attack_increment_eq a _ h0 h1 (by omega)]
  push_cast
  rw [show Proportion (constrain attack 1 HEM_EG_MAX_VALUE) HEM_EG_MAX_VALUE
      HEM_EG_MAX_TICKS_AD - ((k : Int) + 1) =
    Proportion (constrain attack 1 HEM_EG_MAX_VALUE) HEM_EG_MAX_VALUE
      HEM_EG_MAX_TICKS_AD - 1 - k by ring]

/-- The rising-edge tick from the initial state raises the amplitude from 0 to
`FULL / T`. -/
theorem attack_first_tick (attack decay sustain release : Int) (ha : 2 ≤ attack) :
    gateHeld attack decay sustain release (0 + 1) =
      ⟨HEM_EG_ATTACK, 0,
        125829120 / Proportion (constrain attack 1 HEM_EG_MAX_VALUE) HEM_EG_MAX_VALUE
          HEM_EG_MAX_TICKS_AD, true⟩ := by
  have hc := constrain_bounds attack
  have hT := Proportion_AD_bounds hc.1 hc.2
  have h := rising_state attack decay sustain release initState rfl ha
  have hne : initState.stage ≠ HEM_EG_RELEASE := by decide
  rw [if_pos hne, attack_increment_eq 0 _ (le_refl _) (by omega) (by omega)] at h
  simp only [sub_zero, zero_add] at h
  exact h

/-- Invariant of the attack ramp: after `k + 1` gate-high calls the stage is Attack with
`stage_ticks = k`, and the headroom to full scale is `q * m + r` with `m = T - 1 - k` the
ticks still to come, `q = FULL / T` and `0 ≤ r ≤ m`. -/
theorem attack_ramp (attack decay sustain release : Int) (ha : 2 ≤ attack) (k : Nat)
    (hk : (k : Int) < Proportion (constrain attack 1 HEM_EG_MAX_VALUE) HEM_EG_MAX_VALUE
      HEM_EG_MAX_TICKS_AD) :
    ∃ a, gateHeld attack decay sustain release (k + 1) = ⟨HEM_EG_ATTACK, k, a, true⟩ ∧
      0 ≤ a ∧
      0 ≤ 125829120 - a - 125829120 / Proportion (constrain attack 1 HEM_EG_MAX_VALUE)
          HEM_EG_MAX_VALUE HEM_EG_MAX_TICKS_AD *
        (Proportion (constrain attack 1 HEM_EG_MAX_VALUE) HEM_EG_MAX_VALUE
          HEM_EG_MAX_TICKS_AD - 1 - k) ∧
      125829120 - a - 125829120 / Proportion (constrain attack 1 HEM_EG_MAX_VALUE)
          HEM_EG_MAX_VALUE HEM_EG_MAX_TICKS_AD *
        (Proportion (constrain attack 1 HEM_EG_MAX_VALUE) HEM_EG_MAX_VALUE
          HEM_EG_MAX_TICKS_AD - 1 - k) ≤
        Proportion (constrain attack 1 HEM_EG_MAX_VALUE) HEM_EG_MAX_VALUE
          HEM_EG_MAX_TICKS_AD - 1 - k := by
  have hc := constrain_bounds attack
  have hT := Proportion_AD_bounds hc.1 hc.2
  generalize hTdef : Proportion (constrain attack 1 HEM_EG_MAX_VALUE) HEM_EG_MAX_VALUE
    HEM_EG_MAX_TICKS_AD = T at hk hT ⊢
  have hq0 : 0 ≤ 125829120 / T := Int.ediv_nonneg (by omega) (by omega)
  induction k with
  | zero =>
    have hrun : gateHeld attack decay sustain release (0 + 1) =
        ⟨HEM_EG_ATTACK, 0, 125829120 / T, true⟩ := by
      rw [← hTdef]
      exact attack_first_tick attack decay sustain release ha
    refine ⟨125829120 / T, hrun, hq0, ?_, ?_⟩
    · have h1 := Int.emod_add_ediv 125829120 T
      have h2 := Int.emod_nonneg 125829120 (show T ≠ 0 by omega)
      have e : 125829120 / T * (T - 1 - ((0 : Nat) : Int)) = T * (125829120 / T) - 125829120 / T := by
        push_cast; ring
      rw [e]
      omega
    · have h1 := Int.emod_add_ediv 125829120 T
      have h2 := Int.emod_lt_of_pos 125829120 (show 0 < T by omega)
      have e : 125829120 / T * (T - 1 - ((0 : Nat) : Int)) = T * (125829120 / T) - 125829120 / T := by
        push_cast; ring
      rw [e]
      push_cast
      omega
  | succ k ih =>
    have hk' : (k : Int) + 1 < T := by push_cast at hk; exact hk
    obtain ⟨a, hrun, ha0, hr0, hr⟩ := ih (by omega)
    have hm : 0 < T - 1 - (k : Int) := by omega
    have hqm : 0 ≤ 125829120 / T * (T - 1 - (k : Int)) := mul_nonneg hq0 (le_of_lt hm)
    have ha1 : a ≤ 125829120 := by omega
    have hnext := attack_ramp_succ attack decay sustain release ha k a (by rw [hTdef]; exact hk')
      hrun ha0 ha1
    rw [hTdef] at hnext
    have hd0 : 0 ≤ (125829120 - a) / (T - 1 - (k : Int)) :=
      Int.ediv_nonneg (by omega) (le_of_lt hm)
    have e : T - 1 - ((k + 1 : Nat) : Int) = T - 1 - (k : Int) - 1 := by push_cast; ring
    refine ⟨_, hnext, by omega, ?_, ?_⟩
    · rw [e]
      rcases ramp_step (125829120 / T) (T - 1 - k) a hm hr0 hr with ⟨-, -, h3⟩ | ⟨-, -, h3⟩
      · rw [h3]; exact hr0
      · rw [h3]; omega
    · rw [e]
      rcases ramp_step (125829120 / T) (T - 1 - k) a hm hr0 hr with ⟨-, h2, h3⟩ | ⟨-, -, h3⟩
      · rw [h3]; omega
      · rw [h3]

/-- C19: the attack ramp is linear up to one fixed-point unit. For every constant `attack`
in `[2,255]` (any `decay`, `sustain`, `release`), with `T = Proportion(attack, 255, 33333)`,
`FULL = HEMISPHERE_MAX_CV * 2^14` and `q = FULL / T`, a gate held high from the initial
(Idle) state gives: for every `k < T` the state after `k + 1` calls is Attack with
`stage_ticks = k`; the first tick raises the amplitude from 0 by `q`; every later Attack
tick raises it by `q` or `q + 1`; the increase of a tick is never smaller than that of
the tick before; and on the last Attack tick (`stage_ticks = T - 1`) the amplitude is
exactly `FULL`. -/
theorem C19_attack_ramp (attack decay sustain release : Int)
    (ha : 2 ≤ attack ∧ attack ≤ 255) :
    (∀ k : Nat, (k : Int) < Proportion attack HEM_EG_MAX_VALUE HEM_EG_MAX_TICKS_AD →
      (gateHeld attack decay sustain release (k + 1)).stage = HEM_EG_ATTACK ∧
      (gateHeld attack decay sustain release (k + 1)).stage_ticks = k) ∧
    (gateHeld attack decay sustain release 1).amplitude -
        (gateHeld attack decay sustain release 0).amplitude =
      HEMISPHERE_MAX_CV * 2 ^ 14 / Proportion attack HEM_EG_MAX_VALUE HEM_EG_MAX_TICKS_AD ∧
    (∀ k : Nat, (k : Int) + 1 < Proportion attack HEM_EG_MAX_VALUE HEM_EG_MAX_TICKS_AD →
      (gateHeld attack decay sustain release (k + 2)).amplitude -
          (gateHeld attack decay sustain release (k + 1)).amplitude =
        HEMISPHERE_MAX_CV * 2 ^ 14 / Proportion attack HEM_EG_MAX_VALUE HEM_EG_MAX_TICKS_AD ∨
      (gateHeld attack decay sustain release (k + 2)).amplitude -
          (gateHeld attack decay sustain release (k + 1)).amplitude =
        HEMISPHERE_MAX_CV * 2 ^ 14 / Proportion attack HEM_EG_MAX_VALUE HEM_EG_MAX_TICKS_AD
          + 1) ∧
    (∀ k : Nat, (k : Int) + 1 < Proportion attack HEM_EG_MAX_VALUE HEM_EG_MAX_TICKS_AD →
      (gateHeld attack decay sustain release (k + 1)).amplitude -
          (gateHeld attack decay sustain release k).amplitude ≤
        (gateHeld attack decay sustain release (k + 2)).amplitude -
          (gateHeld attack decay sustain release (k + 1)).amplitude) ∧
    (∀ k : Nat, (k : Int) + 1 = Proportion attack HEM_EG_MAX_VALUE HEM_EG_MAX_TICKS_AD →
      gateHeld attack decay sustain release (k + 1) =
        ⟨HEM_EG_ATTACK, Proportion attack HEM_EG_MAX_VALUE HEM_EG_MAX_TICKS_AD - 1,
          HEMISPHERE_MAX_CV * 2 ^ 14, true⟩) := by
  have hca : constrain attack 1 HEM_EG_MAX_VALUE = attack := constrain_of_inRange (by omega) ha.2
  have hT := Proportion_AD_bounds (n := attack) (by omega) ha.2
  have hF : HEMISPHERE_MAX_CV * 2 ^ 14 = 125829120 := by decide
  have hramp := attack_ramp attack decay sustain release ha.1
  have hsucc := attack_ramp_succ attack decay sustain release ha.1
  have hfirst := attack_first_tick attack decay sustain release ha.1
  rw [hca] at hramp hsucc hfirst
  rw [hF]
  generalize Proportion attack HEM_EG_MAX_VALUE HEM_EG_MAX_TICKS_AD = T at hT hramp hsucc hfirst ⊢
  have hq0 : 0 ≤ 125829120 / T := Int.ediv_nonneg (by omega) (by omega)
  -- the increase of tick `k + 2`, from the invariant at tick `k + 1`
  have hinc : ∀ k : Nat, (k : Int) + 1 < T →
      ∃ a, (gateHeld attack decay sustain release (k + 1)).amplitude = a ∧
        (gateHeld attack decay sustain release (k + 2)).amplitude =
          a + (125829120 - a) / (T - 1 - k) ∧
        0 ≤ 125829120 - a - 125829120 / T * (T - 1 - k) ∧
        125829120 - a - 125829120 / T * (T - 1 - k) ≤ T - 1 - k := by
    intro k hk
    obtain ⟨a, hrun, ha0, hr0, hr⟩ := hramp k (by omega)
    have hm : 0 < T - 1 - (k : Int) := by omega
    have hqm : 0 ≤ 125829120 / T * (T - 1 - (k : Int)) := mul_nonneg hq0 (le_of_lt hm)
    have hnext := hsucc k a hk hrun ha0 (by omega)
    exact ⟨a, by rw [hrun], by rw [hnext], hr0, hr⟩
  have h0 : gateHeld attack decay sustain release 0 = initState := rfl
  refine ⟨?_, ?_, ?_, ?_, ?_⟩
  · intro k hk
    obtain ⟨a, hrun, -⟩ := hramp k hk
    rw [hrun]
    exact ⟨rfl, rfl⟩
  · rw [hfirst, h0]
    show 125829120 / T - 0 = _
    rw [sub_zero]
  · intro k hk
    obtain ⟨a, ha1, ha2, hr0, hr⟩ := hinc k hk
    rw [ha1, ha2]
    rcases ramp_step (125829120 / T) (T - 1 - k) a (by omega) hr0 hr with ⟨h, -, -⟩ | ⟨h, -, -⟩
    · left; omega
    · right; omega
  · intro k hk
    obtain ⟨b, hb1, hb2, hs0, hs⟩ := hinc k hk
    have hmb : 0 < T - 1 - (k : Int) := by omega
    rcases ramp_step (125829120 / T) (T - 1 - k) b hmb hs0 hs with ⟨hd2, hlt2, -⟩ | ⟨hd2, -, -⟩
    · -- this tick adds `q`: the tick before must have added `q` too
      cases k with
      | zero =>
        have hbq : b = 125829120 / T := by rw [← hb1, hfirst]
        rw [hb2, hb1, h0, hd2]
        show b - 0 ≤ _
        omega
      | succ k =>
        obtain ⟨a, ha1, ha2, hr0, hr⟩ := hinc k (by push_cast at hk; omega)
        have e : T - 1 - ((k + 1 : Nat) : Int) = T - 1 - (k : Int) - 1 := by push_cast; ring
        rw [e] at hlt2 hd2
        rw [ha2] at hb1
        rcases ramp_step (125829120 / T) (T - 1 - k) a (by omega) hr0 hr with
          ⟨hd1, -, -⟩ | ⟨-, -, h3⟩
        · rw [hb2, ← hb1, ha2, ha1, e]
          rw [hb1, hd2]
          omega
        · rw [hb1] at h3
          omega
    · -- this tick adds `q + 1`, the largest increase there is
      cases k with
      | zero =>
        have hbq : b = 125829120 / T := by rw [← hb1, hfirst]
        rw [hb2, hb1, h0, hd2]
        show b - 0 ≤ _
        omega
      | succ k =>
        obtain ⟨a, ha1, ha2, hr0, hr⟩ := hinc k (by push_cast at hk; omega)
        rw [hb2, hb1, hd2]
        rw [ha2] at hb1
        rcases ramp_step (125829120 / T) (T - 1 - k) a (by omega) hr0 hr with
          ⟨hd1, -, -⟩ | ⟨hd1, -, -⟩
        · rw [← hb1, ha1]; omega
        · rw [← hb1, ha1]; omega
  · intro k hk
    obtain ⟨a, hrun, ha0, hr0, hr⟩ := hramp k (by omega)
    have e : T - 1 - (k : Int) = 0 := by omega
    rw [e, mul_zero] at hr0 hr
    rw [hrun]
    have : a = 125829120 := by omega
    rw [this]
    have e2 : (k : Int) = T - 1 := by omega
    rw [e2]

/-- C19 at `attack = 2` (attack duration 260 ticks): tick 260 is the last Attack tick and
ends at full scale. -/
theorem C19_attack_ramp_witness :
    (2 ≤ (2 : Int) ∧ (2 : Int) ≤ 255) ∧
    ((259 : Nat) : Int) + 1 = Proportion 2 HEM_EG_MAX_VALUE HEM_EG_MAX_TICKS_AD ∧
    gateHeld 2 1 128 128 (259 + 1) =
      ⟨HEM_EG_ATTACK, Proportion 2 HEM_EG_MAX_VALUE HEM_EG_MAX_TICKS_AD - 1,
        HEMISPHERE_MAX_CV * 2 ^ 14, true⟩ :=
  ⟨by decide, by decide,
    (C19_attack_ramp 2 1 128 128 (by decide)).2.2.2.2 259 (by decide)⟩

/-! ### What determines the amplitude -/

/-- C18 (counterexample). With constant parameters `attack = 2`, `decay = 1`,
`sustain = 128`, `release = 128`: after the gate sequence high the state is Attack with
`stage_ticks = 0` and amplitude 483958, after high, low, high it is Attack with
`stage_ticks = 0` and amplitude 966047 (the retrigger carries the release level on);
after high, low it is Release with `stage_ticks = 1` and amplitude 483951, after high,
high, low it is Release with `stage_ticks = 1` and amplitude 967902. -/
theorem C18_counterexample :
    (⟨true, 2, 1, 128, 128⟩ : EGInput).inRange ∧
    run initState [⟨true, 2, 1, 128, 128⟩] = ⟨HEM_EG_ATTACK, 0, 483958, true⟩ ∧
    run initState [⟨true, 2, 1, 128, 128⟩, ⟨false, 2, 1, 128, 128⟩, ⟨true, 2, 1, 128, 128⟩] =
      ⟨HEM_EG_ATTACK, 0, 966047, true⟩ ∧
    run initState [⟨true, 2, 1, 128, 128⟩, ⟨false, 2, 1, 128, 128⟩] =
      ⟨HEM_EG_RELEASE, 1, 483951, false⟩ ∧
    run initState [⟨true, 2, 1, 128, 128⟩, ⟨true, 2, 1, 128, 128⟩, ⟨false, 2, 1, 128, 128⟩] =
      ⟨HEM_EG_RELEASE, 1, 967902, false⟩ := by
  decide

theorem attackTicksRemaining_min {attack : Int} (ha : attack ≤ 1) (k : Int) :
    attackTicksRemaining attack k = 0 := by
  unfold attackTicksRemaining
  rw [constrain_le_one ha]
  exact if_pos rfl

/-- The Decay update from `stage_ticks = j` counted to `j + 1`: either the stage stays
Decay, with the amplitude of `decayStep` and `j + 1` below the 18-bit bound, or the stage
becomes Sustain with `stage_ticks = 0`. -/
theorem decay_tick (decay sustain a : Int) (g : Bool) (k : Int) (hk0 : 0 ≤ k)
    (hk : k ≤ 131071) :
    (DecayAmplitude decay sustain ⟨HEM_EG_DECAY, k, a, g⟩ =
        ⟨HEM_EG_DECAY, k, decayStep decay sustain k a, g⟩ ∧ k < 131071) ∨
    DecayAmplitude decay sustain ⟨HEM_EG_DECAY, k, a, g⟩ =
      ⟨HEM_EG_SUSTAIN, 0,
        int2simfloat (Proportion sustain HEM_EG_MAX_VALUE HEMISPHERE_MAX_CV), g⟩ := by
  rw [DecayAmplitude_eq]
  dsimp only
  by_cases hc : decayTicksRemaining decay sustain k ≤ 0
  · right
    rw [if_pos hc]
  · left
    rw [if_neg hc]
    refine ⟨rfl, ?_⟩
    have hpos := not_le.mp hc
    unfold decayTicksRemaining at hpos
    have hr := Proportion_range decay HEM_EG_MAX_VALUE HEM_EG_MAX_TICKS_AD
    by_cases hs : sustain = 1
    · rw [if_pos hs] at hpos
      exact absurd hpos (lt_irrefl _)
    · rw [if_neg hs] at hpos
      generalize Proportion decay HEM_EG_MAX_VALUE HEM_EG_MAX_TICKS_AD = T at hr hpos
      rw [wrap32_of_isInt32 (by omega) (by omega)] at hpos
      omega

/-- One call with the constant parameters preserves `paramInv`. -/
theorem step_paramInv (attack decay sustain : Int) (s : EGState) (i : EGInput)
    (hi : i.hasParams attack decay sustain) (h1 : stageInv s)
    (h2 : paramInv attack decay sustain s) : paramInv attack decay sustain (step s i) := by
  have hAD : HEM_EG_ATTACK ≠ HEM_EG_DECAY := by decide
  have hAS : HEM_EG_ATTACK ≠ HEM_EG_SUSTAIN := by decide
  have hDS : HEM_EG_DECAY ≠ HEM_EG_SUSTAIN := by decide
  obtain ⟨g, attack', decay', sustain', release⟩ := i
  obtain ⟨ha, hd, hs⟩ := hi
  dsimp only at ha hd hs
  subst ha hd hs
  cases g
  · -- gate low: the stage afterwards is Release or Idle
    have hinv := step_stageInv s ⟨false, attack', decay', sustain', release⟩ h1
    have hgs : (step s ⟨false, attack', decay', sustain', release⟩).gated = false :=
      step_gated _ _
    have hst : (step s ⟨false, attack', decay', sustain', release⟩).stage = HEM_EG_RELEASE ∨
        (step s ⟨false, attack', decay', sustain', release⟩).stage = HEM_EG_NO_STAGE := by
      rcases hinv.2 hgs with h | h
      · exact Or.inl h
      · exact Or.inr h.1
    refine ⟨fun _ => ?_, fun h => ?_, fun h => ?_⟩
    · rcases hst with h | h <;> rw [h] <;> decide
    · rcases hst with h' | h' <;> rw [h'] at h <;> exact absurd h (by decide)
    · rcases hst with h' | h' <;> rw [h'] at h <;> exact absurd h (by decide)
  · unfold step
    dsimp only
    obtain ⟨stage, k, a, gated⟩ := s
    cases gated
    · -- rising edge
      rcases le_or_lt attack' 1 with hle | hlt
      · have h := rising_state_min_attack attack' decay' sustain' release ⟨stage, k, a, false⟩ rfl hle
        rw [h]
        refine ⟨fun _ => hAD.symm, fun h => absurd h hDS, fun _ => ⟨0, rfl, by decide, ?_⟩⟩
        show (125829120 : Int) = decayAmp attack' decay' sustain' 0
        unfold decayAmp
        rw [if_pos hle]
      · rw [rising_state attack' decay' sustain' release ⟨stage, k, a, false⟩ rfl (by omega)]
        exact ⟨fun h => absurd h (by omega), fun h => absurd h hAS, fun h => absurd h hAD⟩
    · -- sustained gate
      rw [GetEnvelopeAmplitude_held _ _ _ _ _ rfl]
      dsimp only
      rcases h1.1 rfl with hst | hst | hst
      · dsimp only at hst
        subst hst
        have hatt : ¬ attack' ≤ 1 := fun h => h2.1 h rfl
        rcases AttackAmplitude_cases attack' ⟨HEM_EG_ATTACK, wrap32 (k + 1), a, true⟩
          with ⟨x, hx⟩ | hx
        · simp only [attackIf, if_true, hx]
          rw [decayIf_attack, sustainIf_attack]
          exact ⟨fun h => absurd h hatt, fun h => absurd h hAS, fun h => absurd h hAD⟩
        · simp only [attackIf, if_true, hx]
          rcases decay_tick decay' sustain' 125829120 true 0 (le_refl _) (by decide)
            with ⟨hd, -⟩ | hd
          · simp only [decayIf, if_true, hd]
            rw [sustainIf_decay]
            refine ⟨fun _ => hAD.symm, fun h => absurd h hDS,
              fun _ => ⟨0, rfl, by decide, ?_⟩⟩
            show decayStep decay' sustain' 0 125829120 = decayAmp attack' decay' sustain' 0
            unfold decayAmp
            rw [if_neg hatt]
          · simp only [decayIf, if_true, hd]
            rw [sustainIf_sustain]
            exact ⟨fun _ => hAS.symm, fun _ => rfl, fun h => absurd h hDS.symm⟩
      · dsimp only at hst
        subst hst
        obtain ⟨j, hj, hjb, hamp⟩ := h2.2.2 rfl
        dsimp only at hj hamp
        subst hj hamp
        have hw : wrap32 ((j : Int) + 1) = (j : Int) + 1 :=
          wrap32_of_isInt32 (by omega) (by omega)
        rw [hw, attackIf_decay]
        rcases decay_tick decay' sustain' (decayAmp attack' decay' sustain' j) true
            ((j : Int) + 1) (by omega) (by omega) with ⟨hd, hlt⟩ | hd
        · simp only [decayIf, if_true, hd]
          rw [sustainIf_decay]
          refine ⟨fun _ => hAD.symm, fun h => absurd h hDS,
            fun _ => ⟨j + 1, by push_cast; rfl, by push_cast; omega, ?_⟩⟩
          show decayStep decay' sustain' ((j : Int) + 1) (decayAmp attack' decay' sustain' j) =
            decayAmp attack' decay' sustain' (j + 1)
          rw [decayAmp]
        · simp only [decayIf, if_true, hd]
          rw [sustainIf_sustain]
          exact ⟨fun _ => hAS.symm, fun _ => rfl, fun h => absurd h hDS.symm⟩
      · dsimp only at hst
        subst hst
        rw [attackIf_sustain, decayIf_sustain, sustainIf_sustain]
        exact ⟨fun _ => hAS.symm, fun _ => rfl, fun h => absurd h hDS.symm⟩

theorem initState_paramInv (attack decay sustain : Int) :
    paramInv attack decay sustain initState :=
  ⟨fun _ => by decide, fun h => absurd h (by decide), fun h => absurd h (by decide)⟩

theorem run_paramInv (attack decay sustain : Int) (l : List EGInput)
    (hl : ∀ i ∈ l, i.hasParams attack decay sustain) (s : EGState) (h1 : stageInv s)
    (h2 : paramInv attack decay sustain s) :
    stageInv (run s l) ∧ paramInv attack decay sustain (run s l) := by
  induction l generalizing s with
  | nil => exact ⟨h1, h2⟩
  | cons i l ih =>
    exact ih (fun j hj => hl j (List.mem_cons_of_mem _ hj)) _ (step_stageInv s i h1)
      (step_paramInv attack decay sustain s i (hl i (List.mem_cons_self _ _)) h1 h2)

/-- C18 (amended). For every fixed choice of constant `attack`, `decay`, `sustain` (any
integers, so in particular in `[1,255]`; gates and `release` arbitrary), any two states
reached from the initial state by calls with those parameters that have the same stage
and the same `stage_ticks` also have the same amplitude, provided that stage is Decay,
Sustain or Idle. (In Attack and in Release the amplitude also depends on the level
carried in by a retrigger or left when the gate dropped.) -/
theorem C18_amplitude_determined (attack decay sustain : Int) (l1 l2 : List EGInput)
    (h1 : ∀ i ∈ l1, i.hasParams attack decay sustain)
    (h2 : ∀ i ∈ l2, i.hasParams attack decay sustain)
    (hstage : (run initState l1).stage = (run initState l2).stage)
    (hticks : (run initState l1).stage_ticks = (run initState l2).stage_ticks)
    (hwhich : (run initState l1).stage = HEM_EG_DECAY ∨
      (run initState l1).stage = HEM_EG_SUSTAIN ∨
      (run initState l1).stage = HEM_EG_NO_STAGE) :
    (run initState l1).amplitude = (run initState l2).amplitude := by
  obtain ⟨hs1, hp1⟩ := run_paramInv attack decay sustain l1 h1 initState initState_stageInv
    (initState_paramInv attack decay sustain)
  obtain ⟨hs2, hp2⟩ := run_paramInv attack decay sustain l2 h2 initState initState_stageInv
    (initState_paramInv attack decay sustain)
  generalize run initState l1 = s1 at *
  generalize run initState l2 = s2 at *
  have idle_amp : ∀ s : EGState, stageInv s → s.stage = HEM_EG_NO_STAGE → s.amplitude = 0 := by
    intro s hs hst
    cases hg : s.gated
    · rcases hs.2 hg with h | h
      · rw [hst] at h; exact absurd h (by decide)
      · exact h.2.2
    · rcases hs.1 hg with h | h | h <;> rw [hst] at h <;> exact absurd h (by decide)
  rcases hwhich with hw | hw | hw
  · obtain ⟨j1, hj1, -, ha1⟩ := hp1.2.2 hw
    obtain ⟨j2, hj2, -, ha2⟩ := hp2.2.2 (hstage ▸ hw)
    have hj : j1 = j2 := by
      have : (j1 : Int) = (j2 : Int) := by rw [← hj1, ← hj2, hticks]
      exact_mod_cast this
    rw [ha1, ha2, hj]
  · rw [hp1.2.1 hw, hp2.2.1 (hstage ▸ hw)]
  · rw [idle_amp s1 hs1 hw, idle_amp s2 hs2 (hstage ▸ hw)]

/-- C18 (amended) at two concrete runs that are both in Decay with `stage_ticks = 1`: one
held from the first trigger, one retriggered after a release tick (`attack = 1`). -/
theorem C18_amplitude_determined_witness :
    (∀ i ∈ [(⟨true, 1, 9, 128, 128⟩ : EGInput), ⟨true, 1, 9, 128, 128⟩],
      i.hasParams 1 9 128) ∧
    (∀ i ∈ [(⟨true, 1, 9, 128, 128⟩ : EGInput), ⟨false, 1, 9, 128, 128⟩,
        ⟨true, 1, 9, 128, 128⟩, ⟨true, 1, 9, 128, 128⟩], i.hasParams 1 9 128) ∧
    (run initState [⟨true, 1, 9, 128, 128⟩, ⟨true, 1, 9, 128, 128⟩]).stage = HEM_EG_DECAY ∧
    (run initState [⟨true, 1, 9, 128, 128⟩, ⟨true, 1, 9, 128, 128⟩]).amplitude =
      (run initState [⟨true, 1, 9, 128, 128⟩, ⟨false, 1, 9, 128, 128⟩,
        ⟨true, 1, 9, 128, 128⟩, ⟨true, 1, 9, 128, 128⟩]).amplitude :=
  ⟨by decide, by decide, by decide,
    C18_amplitude_determined 1 9 128
      [⟨true, 1, 9, 128, 128⟩, ⟨true, 1, 9, 128, 128⟩]
      [⟨true, 1, 9, 128, 128⟩, ⟨false, 1, 9, 128, 128⟩, ⟨true, 1, 9, 128, 128⟩,
        ⟨true, 1, 9, 128, 128⟩]
      (by decide) (by decide) (by decide) (by decide) (by decide)⟩

end EnvGen
